import Mathlib

/-!
# SSVM executor worker: a shallow embedding

The interpreter of `lib/executor/worker.cpp` as pure functions on an explicit
worker state.

Conventions.

* Stacks are lists whose head is the top: `StackMgr.push` is `List.cons`.  A
  stack that the prose writes bottom-up as `S ++ [a, b]` is `b :: a :: S` here.
* The instruction provider is a list of scopes whose head is the top scope.
* A result `none` means that the C++ run leaves the state space of the model:
  a loop that never exits, or the use of a null / dangling entry pointer.
* The driver loop takes a fuel argument that bounds the number of iterations.
* Member functions of the worker whose bodies are not in `worker.cpp` (the
  templates `runAddOp`, `runLoadOp`, ... and `runBlockOp`, `runBrOp`, ...) are
  the fields of a `Helpers` record that every function of the driver receives.
-/

namespace SSVM

/-! ## Status codes, worker states, values -/

/-- Status codes.  The first seven are the ones named in the sources; the rest
are the remaining kinds of the error taxonomy. -/
inductive ErrCode where
  | Success
  | WrongWorkerFlow
  | Unreachable
  | TypeNotMatch
  | InstructionTypeMismatch
  | Unimplemented
  | CallFunctionError
  | WrongEntryKind
  | DivByZero
  | IntegerOverflow
  | MemoryOutOfBounds
  | AddressOutOfRange
  | ImmutableGlobal
  | IndirectCallTypeMismatch
  | HostFunctionFailed
  | Interrupted
  deriving DecidableEq, Repr

/-- The flow state of a worker, `Worker::State`. -/
inductive State where
  | Inited
  | CodeSet
  | Active
  | Unreachable
  deriving DecidableEq, Repr

/-- Value types, `AST::ValType`. -/
inductive ValType where
  | I32
  | I64
  | F32
  | F64
  deriving DecidableEq, Repr

/-- A tagged scalar, `AST::ValVariant`.  Integers are kept as naturals, floats
as their bit patterns. -/
inductive Value where
  | i32 (n : Nat)
  | i64 (n : Nat)
  | f32 (bits : Nat)
  | f64 (bits : Nat)
  deriving DecidableEq, Repr

/-- The tag carried by a value. -/
def Value.tag : Value → ValType
  | .i32 _ => .I32
  | .i64 _ => .I64
  | .f32 _ => .F32
  | .f64 _ => .F64

/-- The zero of a value type. -/
def Value.zero : ValType → Value
  | .I32 => .i32 0
  | .I64 => .i64 0
  | .F32 => .f32 0
  | .F64 => .f64 0

/-- Modelled from the spec: `isValueTypeEqual` of `executor/worker/util.h`,
which is true exactly when the two tags match. -/
def isValueTypeEqual (v1 v2 : Value) : Bool :=
  decide (v1.tag = v2.tag)

/-- Modelled from the spec: `ValueEntry::getValue` read as a 32-bit integer;
the read fails when the tag disagrees, and the output is then not written. -/
def Value.getI32 : Value → Option Nat
  | .i32 n => some n
  | _ => none

/-! ## Opcodes and instructions -/

/-- Opcodes, `AST::Instruction::OpCode`.  `Reserved` stands for a value of the
underlying byte that names no instruction of the six families. -/
inductive OpCode where
  | Unreachable | Nop | Block | Loop | If | Else | End
  | Br | Br_if | Br_table | Return | Call | Call_indirect
  | Drop | Select
  | Local__get | Local__set | Local__tee | Global__get | Global__set
  | I32__load | I64__load | F32__load | F64__load
  | I32__load8_s | I32__load8_u | I32__load16_s | I32__load16_u
  | I32__store | I64__store | F32__store | F64__store
  | I32__store8 | I32__store16
  | Memory__size | Memory__grow
  | I32__const | I64__const | F32__const | F64__const
  | I32__eqz | I32__eq | I32__ne | I32__lt_s | I32__lt_u | I32__gt_s
  | I32__gt_u | I32__le_s | I32__le_u | I32__ge_s | I32__ge_u
  | I64__eqz | I64__eq | I64__ne | I64__lt_s | I64__lt_u | I64__gt_s
  | I64__gt_u | I64__le_s | I64__le_u | I64__ge_s | I64__ge_u
  | I32__clz | I32__ctz | I32__popcnt
  | I32__add | I32__sub | I32__mul | I32__div_s | I32__div_u | I32__rem_s
  | I32__rem_u | I32__and | I32__or | I32__xor | I32__shl | I32__shr_s
  | I32__shr_u | I32__rotl | I32__rotr
  | I64__clz | I64__ctz | I64__popcnt
  | I64__add | I64__sub | I64__mul | I64__div_s | I64__div_u | I64__rem_s
  | I64__rem_u | I64__and | I64__or | I64__xor | I64__shl | I64__shr_s
  | I64__shr_u | I64__rotl | I64__rotr
  | Reserved
  deriving DecidableEq, Repr

/-- Modelled from the spec: the const-numeric family of `util.h`. -/
def isConstNumericOp : OpCode → Bool
  | .I32__const | .I64__const | .F32__const | .F64__const => true
  | _ => false

/-- Modelled from the spec: the control family of `util.h`. -/
def isControlOp : OpCode → Bool
  | .Unreachable | .Nop | .Block | .Loop | .If | .Else | .End
  | .Br | .Br_if | .Br_table | .Return | .Call | .Call_indirect => true
  | _ => false

/-- Modelled from the spec: the parametric family of `util.h`. -/
def isParametricOp : OpCode → Bool
  | .Drop | .Select => true
  | _ => false

/-- Modelled from the spec: the variable family of `util.h`. -/
def isVariableOp : OpCode → Bool
  | .Local__get | .Local__set | .Local__tee | .Global__get | .Global__set => true
  | _ => false

/-- Modelled from the spec: the load opcodes of `util.h`. -/
def isLoadOp : OpCode → Bool
  | .I32__load | .I64__load | .F32__load | .F64__load
  | .I32__load8_s | .I32__load8_u | .I32__load16_s | .I32__load16_u => true
  | _ => false

/-- Modelled from the spec: the store opcodes of `util.h`. -/
def isStoreOp : OpCode → Bool
  | .I32__store | .I64__store | .F32__store | .F64__store
  | .I32__store8 | .I32__store16 => true
  | _ => false

/-- Modelled from the spec: the memory family of `util.h`. -/
def isMemoryOp (op : OpCode) : Bool :=
  isLoadOp op || isStoreOp op || decide (op = .Memory__size) || decide (op = .Memory__grow)

/-- Modelled from the spec: the comparison opcodes of `util.h` (two operands,
an i32 truth value as result). -/
def isComparisonOp : OpCode → Bool
  | .I32__eq | .I32__ne | .I32__lt_s | .I32__lt_u | .I32__gt_s
  | .I32__gt_u | .I32__le_s | .I32__le_u | .I32__ge_s | .I32__ge_u
  | .I64__eq | .I64__ne | .I64__lt_s | .I64__lt_u | .I64__gt_s
  | .I64__gt_u | .I64__le_s | .I64__le_u | .I64__ge_s | .I64__ge_u => true
  | _ => false

/-- Modelled from the spec: the binary opcodes of `util.h` (two operands of
one type, a result of that type). -/
def isBinaryOp : OpCode → Bool
  | .I32__add | .I32__sub | .I32__mul | .I32__div_s | .I32__div_u | .I32__rem_s
  | .I32__rem_u | .I32__and | .I32__or | .I32__xor | .I32__shl | .I32__shr_s
  | .I32__shr_u | .I32__rotl | .I32__rotr
  | .I64__add | .I64__sub | .I64__mul | .I64__div_s | .I64__div_u | .I64__rem_s
  | .I64__rem_u | .I64__and | .I64__or | .I64__xor | .I64__shl | .I64__shr_s
  | .I64__shr_u | .I64__rotl | .I64__rotr => true
  | _ => false

/-- Modelled from the spec: the unary and test opcodes of the numeric family. -/
def isUnaryOp : OpCode → Bool
  | .I32__eqz | .I64__eqz | .I32__clz | .I32__ctz | .I32__popcnt
  | .I64__clz | .I64__ctz | .I64__popcnt => true
  | _ => false

/-- Modelled from the spec: the numeric family of `util.h`. -/
def isNumericOp (op : OpCode) : Bool :=
  isUnaryOp op || isBinaryOp op || isComparisonOp op

/-- Instructions.  Each constructor is one of the C++ instruction classes that
the worker reaches with `dynamic_cast`; every one carries its opcode. -/
inductive Instruction where
  | const (op : OpCode) (val : Value)
  | control (op : OpCode) (index : Nat) (body : List Instruction)
  | numeric (op : OpCode)
  | memory (op : OpCode) (align : Nat) (offset : Nat)
  | parametric (op : OpCode)
  | variable (op : OpCode) (index : Nat)

/-- The opcode of an instruction, `Instruction::getOpCode`. -/
def Instruction.getOpCode : Instruction → OpCode
  | .const op _ => op
  | .control op _ _ => op
  | .numeric op => op
  | .memory op _ _ => op
  | .parametric op => op
  | .variable op _ => op

/-- An instruction vector, `InstrVec`. -/
abbrev InstrVec := List Instruction

/-! ## The stack -/

/-- A branch target on the stack: its arity and, for a loop, the instruction
to continue at. -/
structure LabelEntry where
  arity : Nat
  continuation : Option Instruction

/-- An activation record on the stack. -/
structure FrameEntry where
  moduleAddr : Nat
  arity : Nat
  locals : List Value

/-- The three kinds of stack record. -/
inductive StackEntry where
  | value (v : Value)
  | label (l : LabelEntry)
  | frame (f : FrameEntry)

/-- The unified stack; the head of the list is the top. -/
abbrev Stack := List StackEntry

namespace StackMgr

/-- Modelled from the spec: `StackManager::push`, which appends a record. -/
def push (e : StackEntry) (s : Stack) : Stack := e :: s

/-- Modelled from the spec: the untyped `StackManager::pop()`, which removes
the top record.  Every caller discards its status, so only the stack is
returned; on an empty stack nothing is removed. -/
def pop : Stack → Stack
  | [] => []
  | _ :: s => s

/-- Modelled from the spec: the typed `StackManager::pop(Val)`.  When the top
is a ValueEntry it is removed and handed out; otherwise the call fails, the
stack is unchanged and the output pointer stays null (`none`).  Every caller
discards the status. -/
def popValue : Stack → Option Value × Stack
  | .value v :: s => (some v, s)
  | s => (none, s)

/-- Modelled from the spec: `StackManager::isTopLabel`. -/
def isTopLabel : Stack → Bool
  | .label _ :: _ => true
  | _ => false

/-- Modelled from the spec: `StackManager::isTopFrame`. -/
def isTopFrame : Stack → Bool
  | .frame _ :: _ => true
  | _ => false

/-- Modelled from the spec: `StackManager::getCurrentFrame`, the topmost
FrameEntry.  A frame is identified by its position counted from the bottom of
the stack, which does not move while records above it come and go. -/
def getCurrentFrame : Stack → Option Nat
  | [] => none
  | .frame _ :: s => some s.length
  | _ :: s => getCurrentFrame s

/-- The frame found at a position counted from the bottom, if that position
holds a frame: the dereference of a `FrameEntry *`. -/
def frameAt : Stack → Nat → Option FrameEntry
  | [], _ => none
  | e :: s, pos =>
    if pos = s.length then
      match e with
      | .frame f => some f
      | _ => none
    else frameAt s pos

/-- Modelled from the spec: `FrameEntry::setValue` through a frame pointer:
local `idx` of the frame at `pos` becomes `v`; an index out of range fails
and changes nothing. -/
def setLocalAt : Stack → Nat → Nat → Value → Stack
  | [], _, _, _ => []
  | e :: s, pos, idx, v =>
    if pos = s.length then
      match e with
      | .frame f => .frame { f with locals := f.locals.set idx v } :: s
      | other => other :: s
    else e :: setLocalAt s pos idx v

end StackMgr

/-- Reading every pointer of a buffer; a null pointer cannot be read. -/
def derefAll : List (Option Value) → Option (List Value)
  | [] => some []
  | none :: _ => none
  | some v :: vs =>
    match derefAll vs with
    | some rest => some (v :: rest)
    | none => none

/-- The declared locals of a function, each the zero of its type; a
declaration is a count and a type. -/
def zeroLocals (localDefs : List (Nat × ValType)) : List Value :=
  localDefs.flatMap (fun d => List.replicate d.1 (Value.zero d.2))

/-- Modelled from the spec: the constructor `FrameEntry(ModuleAddr, Arity,
Vals, LocalDefs)`.  `vals` holds the arguments in the order they were popped
(last argument first); the locals are the arguments in declaration order
followed by the declared locals, each the zero of its type.  A null argument
pointer cannot be read. -/
def makeFrame (moduleAddr arity : Nat) (vals : List (Option Value))
    (localDefs : List (Nat × ValType)) : Option FrameEntry :=
  match derefAll vals.reverse with
  | none => none
  | some args =>
    some { moduleAddr := moduleAddr, arity := arity, locals := args ++ zeroLocals localDefs }

/-! ## The instruction provider -/

/-- The kind of an instruction sequence, `InstrProvider::SeqType`. -/
inductive SeqType where
  | Expression
  | Block
  | FunctionCall
  deriving DecidableEq, Repr

/-- One scope of the instruction provider: a sequence and its cursor. -/
structure Scope where
  kind : SeqType
  seq : InstrVec
  cursor : Nat

/-- The stack of scopes; the head of the list is the top scope. -/
abbrev InstrProvider := List Scope

namespace InstrProvider

/-- Modelled from the spec: `pushInstrs` installs a sequence with its cursor
at the first instruction. -/
def pushInstrs (kind : SeqType) (seq : InstrVec) (p : InstrProvider) :
    ErrCode × InstrProvider :=
  (.Success, { kind := kind, seq := seq, cursor := 0 } :: p)

/-- Modelled from the spec: `popInstrs` removes the top sequence; with no
scope left there is nothing to remove and the call fails.  The status of that
case is never observed: the driver keeps the status only when a scope exists. -/
def popInstrs : InstrProvider → ErrCode × InstrProvider
  | [] => (.WrongWorkerFlow, [])
  | _ :: p => (.Success, p)

/-- Modelled from the spec: `getNextInstr` returns the instruction at the
cursor and advances, or null when the cursor is at the end. -/
def getNextInstr : InstrProvider → Option Instruction × InstrProvider
  | [] => (none, [])
  | sc :: p =>
    match sc.seq.get? sc.cursor with
    | some i => (some i, { sc with cursor := sc.cursor + 1 } :: p)
    | none => (none, sc :: p)

/-- Modelled from the spec: `getTopScopeType`. -/
def getTopScopeType : InstrProvider → SeqType
  | [] => .Expression
  | sc :: _ => sc.kind

/-- Modelled from the spec: `getScopeSize`. -/
def getScopeSize (p : InstrProvider) : Nat := p.length

end InstrProvider

/-! ## The store -/

/-- A function signature, `ModuleInstance::FType`. -/
structure FType where
  params : List ValType
  returns : List ValType

/-- A guest function instance. -/
structure FunctionInstance where
  moduleAddr : Nat
  typeIdx : Nat
  locals : List (Nat × ValType)
  instrs : InstrVec

/-- A module instance: its signatures and its index-to-address maps. -/
structure ModuleInstance where
  funcTypes : List FType
  funcAddrs : List Nat
  memAddrs : List Nat
  globalAddrs : List Nat

/-- A global instance: a value and its mutability flag. -/
structure GlobalInstance where
  value : Value
  isMutable : Bool

/-- A memory instance: a byte buffer. -/
structure MemoryInstance where
  data : List Nat

/-- The store, `StoreManager`. -/
structure StoreManager where
  funcs : List FunctionInstance
  modules : List ModuleInstance
  mems : List MemoryInstance
  globals : List GlobalInstance

/-- Modelled from the spec: a lookup by address or index, failing with the
address error when it is out of range. -/
def lookup {α : Type} (xs : List α) (addr : Nat) : Except ErrCode α :=
  match xs.get? addr with
  | some x => .ok x
  | none => .error .AddressOutOfRange

/-- Modelled from the spec: `StoreManager::getFunction`. -/
def StoreManager.getFunction (st : StoreManager) (addr : Nat) : Except ErrCode FunctionInstance :=
  lookup st.funcs addr

/-- Modelled from the spec: `StoreManager::getModule`. -/
def StoreManager.getModule (st : StoreManager) (addr : Nat) : Except ErrCode ModuleInstance :=
  lookup st.modules addr

/-- Modelled from the spec: `StoreManager::getGlobal`. -/
def StoreManager.getGlobal (st : StoreManager) (addr : Nat) : Except ErrCode GlobalInstance :=
  lookup st.globals addr

/-- Modelled from the spec: `ModuleInstance::getFuncType`. -/
def ModuleInstance.getFuncType (m : ModuleInstance) (idx : Nat) : Except ErrCode FType :=
  lookup m.funcTypes idx

/-- Modelled from the spec: `ModuleInstance::getGlobalAddr`. -/
def ModuleInstance.getGlobalAddr (m : ModuleInstance) (idx : Nat) : Except ErrCode Nat :=
  lookup m.globalAddrs idx

/-- Modelled from the spec: `GlobalInstance::setValue`, which fails with the
immutable-global error on a non-mutable target and leaves it as it is. -/
def GlobalInstance.setValue (g : GlobalInstance) (v : Value) : ErrCode × GlobalInstance :=
  if g.isMutable then (.Success, { g with value := v }) else (.ImmutableGlobal, g)

/-- The store after `setValue` on the global at `addr`; the status of
`setValue` is what the caller sees of it. -/
def StoreManager.setGlobalValue (st : StoreManager) (addr : Nat) (v : Value) : StoreManager :=
  match st.globals.get? addr with
  | some g => { st with globals := st.globals.set addr (g.setValue v).2 }
  | none => st

/-! ## The worker -/

/-- The state of a worker: the flow state, the stack manager, the instruction
provider, the store, the cached `CurrentFrame` pointer (a position from the
bottom of the stack, `none` for null) and the argument bytes. -/
structure Worker where
  state : State
  stack : Stack
  instrPdr : InstrProvider
  store : StoreManager
  currentFrame : Option Nat
  args : List Nat

/-- What a member function leaves behind: a status and the worker, or `none`
when the run leaves the model. -/
abbrev Outcome := Option (ErrCode × Worker)

/-- The integer types the numeric and memory templates are instantiated at. -/
inductive IntT where
  | int32_t
  | int64_t
  deriving DecidableEq, Repr

/-- The member functions of the worker that `worker.cpp` calls but does not
define.  The numeric helpers receive the two operands that were popped and
the worker after the pops. -/
structure Helpers where
  runAddOp : IntT → Value → Value → Worker → Outcome
  runSubOp : IntT → Value → Value → Worker → Outcome
  runMulOp : IntT → Value → Value → Worker → Outcome
  runDivUOp : IntT → Value → Value → Worker → Outcome
  runModUOp : IntT → Value → Value → Worker → Outcome
  runLeSOp : IntT → Value → Value → Worker → Outcome
  runEqOp : IntT → Value → Value → Worker → Outcome
  runNeOp : IntT → Value → Value → Worker → Outcome
  runLtUOp : IntT → Value → Value → Worker → Outcome
  runLoadOp : IntT → Instruction → Worker → Outcome
  runStoreOp : IntT → Instruction → Worker → Outcome
  runBlockOp : Instruction → Worker → Outcome
  runBrOp : Instruction → Worker → Outcome
  runBrIfOp : Instruction → Worker → Outcome
  runReturnOp : Worker → Outcome
  runCallOp : Instruction → Worker → Outcome

/-! ## Scope entry and exit -/

/-- The refresh `StackMgr.getCurrentFrame(CurrentFrame)`: the cache points at
the topmost frame; with no frame on the stack the call fails and the cache
keeps its old value. -/
def refreshCurrentFrame (w : Worker) : Worker :=
  match StackMgr.getCurrentFrame w.stack with
  | some pos => { w with currentFrame := some pos }
  | none => w

/-- The dereference of the cached `CurrentFrame` pointer. -/
def currentFrameEntry (w : Worker) : Option FrameEntry :=
  match w.currentFrame with
  | some pos => StackMgr.frameAt w.stack pos
  | none => none

/-- A counted loop of typed pops, `for (I < N) { pop(Val); Vals.push_back(Val); }`.
The buffer lists the pointers in the order they were popped; a failed pop
contributes a null pointer. -/
def popVals : Nat → Stack → List (Option Value) × Stack
  | 0, s => ([], s)
  | n + 1, s =>
    let r := StackMgr.popValue s
    let rest := popVals n r.2
    (r.1 :: rest.1, rest.2)

/-- Pushing one buffered pointer; a null pointer is no stack record. -/
def pushPtr (s : Stack) (v : Option Value) : Option Stack :=
  match v with
  | some x => some (StackMgr.push (.value x) s)
  | none => none

/-- The loop `for (Iter = Vals.rbegin(); Iter != Vals.rend(); Iter++) push(*Iter)`. -/
def pushValsReversed (vals : List (Option Value)) (s : Stack) : Option Stack :=
  vals.reverse.foldlM pushPtr s

/-- The function `Worker::enterBlock`: push the label, then the body as a Block scope. -/
def enterBlock (arity : Nat) (instr : Option Instruction) (seq : InstrVec) (w : Worker) :
    Outcome :=
  let label : LabelEntry :=
    match instr with
    | none => { arity := arity, continuation := none }
    | some i => { arity := arity, continuation := some i }
  let stack1 := StackMgr.push (.label label) w.stack
  let r := InstrProvider.pushInstrs .Block seq w.instrPdr
  some (r.1, { w with stack := stack1, instrPdr := r.2 })

/-- The loop `while (!StackMgr.isTopLabel())` of `leaveBlock`.  A value on top
is popped into the buffer.  On a frame or on an empty stack the typed pop
fails and changes nothing, so the loop never exits. -/
def leaveBlockPop : Stack → Option (List (Option Value) × Stack)
  | [] => none
  | .label l :: s => some ([], .label l :: s)
  | .value v :: s =>
    match leaveBlockPop s with
    | some r => some (some v :: r.1, r.2)
    | none => none
  | .frame _ :: _ => none

/-- The function `Worker::leaveBlock`. -/
def leaveBlock (w : Worker) : Outcome :=
  match leaveBlockPop w.stack with
  | none => none
  | some (vals, stack1) =>
    let pdr1 := (InstrProvider.popInstrs w.instrPdr).2
    let stack2 := StackMgr.pop stack1
    match pushValsReversed vals stack2 with
    | none => none
    | some stack3 => some (.Success, { w with stack := stack3, instrPdr := pdr1 })

/-- The function `Worker::invokeFunction`.  The local `Status` is assigned by
the function lookup only; the two later lookups return it as it stands. -/
def invokeFunction (funcAddr : Nat) (w : Worker) : Outcome :=
  match w.store.getFunction funcAddr with
  | .error status => some (status, w)
  | .ok funcInst =>
    let status := ErrCode.Success
    match w.store.getModule funcInst.moduleAddr with
    | .error _ => some (status, w)
    | .ok moduleInst =>
      match moduleInst.getFuncType funcInst.typeIdx with
      | .error _ => some (status, w)
      | .ok funcType =>
        let popped := popVals funcType.params.length w.stack
        let arity := funcType.returns.length
        match makeFrame funcInst.moduleAddr arity popped.1 funcInst.locals with
        | none => none
        | some frame =>
          let stack1 := StackMgr.push (.frame frame) popped.2
          let pdr1 := (InstrProvider.pushInstrs .FunctionCall [] w.instrPdr).2
          enterBlock arity none funcInst.instrs { w with stack := stack1, instrPdr := pdr1 }

/-- The loop `while (!StackMgr.isTopFrame())` of `returnFunction`: records
are popped down to the frame, and each label takes a scope with it.  On an
empty stack the pop changes nothing, so the loop never exits. -/
def unwindToFrame : Stack → InstrProvider → Option (Stack × InstrProvider)
  | [], _ => none
  | .frame f :: s, p => some (.frame f :: s, p)
  | .label _ :: s, p => unwindToFrame s (InstrProvider.popInstrs p).2
  | .value _ :: s, p => unwindToFrame s p

/-- The function `Worker::returnFunction`. -/
def returnFunction (w : Worker) : Outcome :=
  let w1 := refreshCurrentFrame w
  match currentFrameEntry w1 with
  | none => none
  | some frame =>
    let arity := frame.arity
    let popped := popVals arity w1.stack
    match unwindToFrame popped.2 w1.instrPdr with
    | none => none
    | some (stack1, pdr1) =>
      let pdr2 := (InstrProvider.popInstrs pdr1).2
      let stack2 := StackMgr.pop stack1
      match pushValsReversed popped.1 stack2 with
      | none => none
      | some stack3 => some (.Success, { w1 with stack := stack3, instrPdr := pdr2 })

/-! ## The instruction families -/

/-- The function `Worker::runConstNumericOp`. -/
def runConstNumericOp (instr : Instruction) (w : Worker) : Outcome :=
  match instr with
  | .const _ val => some (.Success, { w with stack := StackMgr.push (.value val) w.stack })
  | _ => some (.InstructionTypeMismatch, w)

/-- The function `Worker::runNumericOp`. -/
def runNumericOp (h : Helpers) (instr : Instruction) (w : Worker) : Outcome :=
  match instr with
  | .numeric op =>
    if isBinaryOp op then
      let r2 := StackMgr.popValue w.stack
      let r1 := StackMgr.popValue r2.2
      let w1 := { w with stack := r1.2 }
      match r1.1, r2.1 with
      | some val1, some val2 =>
        if isValueTypeEqual val1 val2 then some (.TypeNotMatch, w1)
        else
          match op with
          | .I32__add => h.runAddOp .int32_t val1 val2 w1
          | .I32__sub => h.runSubOp .int32_t val1 val2 w1
          | .I64__add => h.runAddOp .int64_t val1 val2 w1
          | .I64__sub => h.runSubOp .int64_t val1 val2 w1
          | .I64__mul => h.runMulOp .int64_t val1 val2 w1
          | .I64__div_u => h.runDivUOp .int64_t val1 val2 w1
          | .I64__rem_u => h.runModUOp .int64_t val1 val2 w1
          | _ => some (.Unimplemented, w1)
      | _, _ => none
    else if isComparisonOp op then
      let r2 := StackMgr.popValue w.stack
      let r1 := StackMgr.popValue r2.2
      let w1 := { w with stack := r1.2 }
      match r1.1, r2.1 with
      | some val1, some val2 =>
        if isValueTypeEqual val1 val2 then some (.TypeNotMatch, w1)
        else
          match op with
          | .I32__le_s => h.runLeSOp .int32_t val1 val2 w1
          | .I32__eq => h.runEqOp .int32_t val1 val2 w1
          | .I32__ne => h.runNeOp .int32_t val1 val2 w1
          | .I64__eq => h.runEqOp .int64_t val1 val2 w1
          | .I64__lt_u => h.runLtUOp .int64_t val1 val2 w1
          | _ => some (.Unimplemented, w1)
      | _, _ => none
    else some (.Unimplemented, w)
  | _ => some (.InstructionTypeMismatch, w)

/-- The `switch` of `Worker::runControlOp`: the status it stores in its local
`Status`, with the worker it leaves. -/
def runControlOpStatus (h : Helpers) (instr : Instruction) (op : OpCode) (w : Worker) :
    Outcome :=
  match op with
  | .Unreachable => some (.Unreachable, { w with state := .Unreachable })
  | .Block => h.runBlockOp instr w
  | .Br => h.runBrOp instr w
  | .Br_if => h.runBrIfOp instr w
  | .Return => h.runReturnOp w
  | .Call => h.runCallOp instr w
  | _ => some (.Unimplemented, w)

/-- The function `Worker::runControlOp`: after the `switch` it ends with
`return ErrCode::Success`. -/
def runControlOp (h : Helpers) (instr : Instruction) (w : Worker) : Outcome :=
  match instr with
  | .control op _ _ =>
    match runControlOpStatus h instr op w with
    | none => none
    | some (_, w1) => some (.Success, w1)
  | _ => some (.InstructionTypeMismatch, w)

/-- The function `Worker::runMemoryOp`. -/
def runMemoryOp (h : Helpers) (instr : Instruction) (w : Worker) : Outcome :=
  match instr with
  | .memory op _ _ =>
    if isLoadOp op then
      match op with
      | .I32__load => h.runLoadOp .int32_t instr w
      | .I64__load => h.runLoadOp .int64_t instr w
      | _ => some (.Unimplemented, w)
    else if isStoreOp op then
      match op with
      | .I32__store => h.runStoreOp .int32_t instr w
      | .I64__store => h.runStoreOp .int64_t instr w
      | _ => some (.Unimplemented, w)
    else some (.Unimplemented, w)
  | _ => some (.InstructionTypeMismatch, w)

/-- The function `Worker::runParametricOp`.  `select` reads the popped
condition as an i32; a null pointer or a failed read leaves nothing to test. -/
def runParametricOp (instr : Instruction) (w : Worker) : Outcome :=
  match instr with
  | .parametric op =>
    if op = .Drop then some (.Success, { w with stack := StackMgr.pop w.stack })
    else if op = .Select then
      let rc := StackMgr.popValue w.stack
      match rc.1.bind Value.getI32 with
      | none => none
      | some val =>
        let r2 := StackMgr.popValue rc.2
        let r1 := StackMgr.popValue r2.2
        let chosen := if val = 0 then r2.1 else r1.1
        match pushPtr r1.2 chosen with
        | none => none
        | some stack1 => some (.Success, { w with stack := stack1 })
    else some (.InstructionTypeMismatch, w)
  | _ => some (.InstructionTypeMismatch, w)

/-- The call `CurrentFrame->setValue(Index, Val)` through the cached pointer.
A null or dangling frame pointer, or a null value pointer, cannot be used. -/
def setCurrentLocal (w : Worker) (index : Nat) (val : Option Value) : Option Worker :=
  match w.currentFrame, val with
  | some pos, some v =>
    match StackMgr.frameAt w.stack pos with
    | some _ => some { w with stack := StackMgr.setLocalAt w.stack pos index v }
    | none => none
  | _, _ => none

/-- The lookup chain shared by `global.get` and `global.set`: the module of
the cached frame, the global address of the index, the global instance.  Each
status is discarded by the source, so a failed step leaves a pointer or an
address that cannot be used. -/
def resolveGlobal (w : Worker) (index : Nat) : Option (Nat × GlobalInstance) :=
  match currentFrameEntry w with
  | none => none
  | some frame =>
    match w.store.getModule frame.moduleAddr with
    | .error _ => none
    | .ok moduleInst =>
      match moduleInst.getGlobalAddr index with
      | .error _ => none
      | .ok globalAddr =>
        match w.store.getGlobal globalAddr with
        | .error _ => none
        | .ok glob => some (globalAddr, glob)

/-- The function `Worker::runVariableOp`.  `local.get`, `local.set`,
`global.get` and `global.set` refresh the cached frame pointer first;
`local.tee` uses the pointer as it finds it. -/
def runVariableOp (instr : Instruction) (w : Worker) : Outcome :=
  match instr with
  | .variable op index =>
    if op = .Local__get then
      let w1 := refreshCurrentFrame w
      match currentFrameEntry w1 with
      | none => none
      | some frame =>
        match frame.locals.get? index with
        | none => none
        | some val =>
          some (.Success, { w1 with stack := StackMgr.push (.value val) w1.stack })
    else if op = .Local__set then
      let w1 := refreshCurrentFrame w
      let r := StackMgr.popValue w1.stack
      match setCurrentLocal { w1 with stack := r.2 } index r.1 with
      | none => none
      | some w2 => some (.Success, w2)
    else if op = .Local__tee then
      let r := StackMgr.popValue w.stack
      match r.1 with
      | none => none
      | some val =>
        let stack1 := StackMgr.push (.value val) r.2
        match setCurrentLocal { w with stack := stack1 } index r.1 with
        | none => none
        | some w2 => some (.Success, w2)
    else if op = .Global__get then
      let w1 := refreshCurrentFrame w
      match resolveGlobal w1 index with
      | none => none
      | some (_, glob) =>
        some (.Success, { w1 with stack := StackMgr.push (.value glob.value) w1.stack })
    else if op = .Global__set then
      let w1 := refreshCurrentFrame w
      match resolveGlobal w1 index with
      | none => none
      | some (globalAddr, _) =>
        let r := StackMgr.popValue w1.stack
        match r.1 with
        | none => none
        | some val =>
          some (.Success, { w1 with stack := r.2,
                                    store := w1.store.setGlobalValue globalAddr val })
    else some (.InstructionTypeMismatch, w)
  | _ => some (.InstructionTypeMismatch, w)

/-! ## The driver -/

/-- One iteration of the `while` loop of `Worker::runLoop`, entered with
`Status == Success`.  An opcode of none of the six families leaves the status
as it was. -/
def runLoopStep (h : Helpers) (w : Worker) : Outcome :=
  let fetched := InstrProvider.getNextInstr w.instrPdr
  let w1 := { w with instrPdr := fetched.2 }
  match fetched.1 with
  | none =>
    if InstrProvider.getTopScopeType w1.instrPdr = .FunctionCall then returnFunction w1
    else if InstrProvider.getTopScopeType w1.instrPdr = .Block then leaveBlock w1
    else
      let r := InstrProvider.popInstrs w1.instrPdr
      some (r.1, { w1 with instrPdr := r.2 })
  | some instr =>
    let opcode := instr.getOpCode
    if isConstNumericOp opcode then runConstNumericOp instr w1
    else if isControlOp opcode then runControlOp h instr w1
    else if isNumericOp opcode then runNumericOp h instr w1
    else if isMemoryOp opcode then runMemoryOp h instr w1
    else if isParametricOp opcode then runParametricOp instr w1
    else if isVariableOp opcode then runVariableOp instr w1
    else some (.Success, w1)

/-- The `while` loop of `Worker::runLoop`; `fuel` bounds the iterations, and
running out of it is no result. -/
def runLoopWhile (h : Helpers) (fuel : Nat) (status : ErrCode) (w : Worker) : Outcome :=
  if 0 < InstrProvider.getScopeSize w.instrPdr ∧ status = .Success then
    match fuel with
    | 0 => none
    | fuel1 + 1 =>
      match runLoopStep h w with
      | none => none
      | some (status1, w1) => runLoopWhile h fuel1 status1 w1
  else some (status, w)

/-- The function `Worker::runLoop`. -/
def runLoop (h : Helpers) (fuel : Nat) (w : Worker) : Outcome :=
  if w.state = .Unreachable then some (.Unreachable, w)
  else if w.state ≠ .CodeSet then some (.WrongWorkerFlow, w)
  else
    match runLoopWhile h fuel .Success { w with state := .Active } with
    | none => none
    | some (status, w1) =>
      if w1.state = .Unreachable then some (.Unreachable, w1)
      else some (status, { w1 with state := .Inited })

/-- The function `Worker::setArguments`. -/
def setArguments (input : List Nat) (w : Worker) : ErrCode × Worker :=
  (.Success, { w with args := input })

/-- The function `Worker::runExpression`. -/
def runExpression (h : Helpers) (fuel : Nat) (instrs : InstrVec) (w : Worker) : Outcome :=
  if w.state ≠ .Inited then some (.WrongWorkerFlow, w)
  else
    let pdr1 := (InstrProvider.pushInstrs .Expression instrs w.instrPdr).2
    runLoop h fuel { w with instrPdr := pdr1, state := .CodeSet }

/-- The function `Worker::runStartFunction`. -/
def runStartFunction (h : Helpers) (fuel : Nat) (funcAddr : Nat) (w : Worker) : Outcome :=
  if w.state ≠ .Inited then some (.WrongWorkerFlow, w)
  else
    match invokeFunction funcAddr w with
    | none => none
    | some (status, w1) =>
      if status ≠ .Success then some (status, w1)
      else runLoop h fuel { w1 with state := .CodeSet }

/-! ## Fixtures -/

/-- A helper record for runs that reach none of the helpers: each field
reports `Unimplemented` and leaves the worker as it is. -/
def Helpers.unimplemented : Helpers where
  runAddOp := fun _ _ _ w => some (.Unimplemented, w)
  runSubOp := fun _ _ _ w => some (.Unimplemented, w)
  runMulOp := fun _ _ _ w => some (.Unimplemented, w)
  runDivUOp := fun _ _ _ w => some (.Unimplemented, w)
  runModUOp := fun _ _ _ w => some (.Unimplemented, w)
  runLeSOp := fun _ _ _ w => some (.Unimplemented, w)
  runEqOp := fun _ _ _ w => some (.Unimplemented, w)
  runNeOp := fun _ _ _ w => some (.Unimplemented, w)
  runLtUOp := fun _ _ _ w => some (.Unimplemented, w)
  runLoadOp := fun _ _ w => some (.Unimplemented, w)
  runStoreOp := fun _ _ w => some (.Unimplemented, w)
  runBlockOp := fun _ w => some (.Unimplemented, w)
  runBrOp := fun _ w => some (.Unimplemented, w)
  runBrIfOp := fun _ w => some (.Unimplemented, w)
  runReturnOp := fun w => some (.Unimplemented, w)
  runCallOp := fun _ w => some (.Unimplemented, w)

/-- A store with one module (one signature `params -> returns`) and one guest
function of that signature with the given declared locals and body. -/
def oneFunctionStore (params returns : List ValType) (locals : List (Nat × ValType))
    (body : InstrVec) : StoreManager where
  funcs := [{ moduleAddr := 0, typeIdx := 0, locals := locals, instrs := body }]
  modules := [{ funcTypes := [{ params := params, returns := returns }],
                funcAddrs := [0], memAddrs := [], globalAddrs := [] }]
  mems := []
  globals := []

/-- A freshly initialised worker over a store with a given stack. -/
def freshWorker (store : StoreManager) (stack : Stack) : Worker where
  state := .Inited
  stack := stack
  instrPdr := []
  store := store
  currentFrame := none
  args := []

/-- The body `[i32.const 1; unreachable]`. -/
def unreachableBody : InstrVec :=
  [.const .I32__const (.i32 1), .control .Unreachable 0 []]

/-- A store whose only function names module address 7, which does not exist. -/
def danglingModuleStore : StoreManager where
  funcs := [{ moduleAddr := 7, typeIdx := 0, locals := [], instrs := [] }]
  modules := []
  mems := []
  globals := []

/-- A store whose only function names type index 3 of a module with one signature. -/
def danglingTypeStore : StoreManager where
  funcs := [{ moduleAddr := 0, typeIdx := 3, locals := [], instrs := [] }]
  modules := [{ funcTypes := [{ params := [], returns := [] }],
                funcAddrs := [0], memAddrs := [], globalAddrs := [] }]
  mems := []
  globals := []

/-! ## Auxiliary definitions for the statements -/

/-- Whether a stack record is a FrameEntry. -/
def StackEntry.isFrame : StackEntry → Bool
  | .frame _ => true
  | _ => false

/-- Whether a stack record is a LabelEntry. -/
def StackEntry.isLabel : StackEntry → Bool
  | .label _ => true
  | _ => false

/-- The number of LabelEntry records of a stack segment. -/
def countLabels (s : Stack) : Nat := (s.filter StackEntry.isLabel).length

/-- The worker after `k` iterations of the driver loop, each of them entered
with a scope to read from and left with status Success. -/
def runLoopIter (h : Helpers) : Nat → Worker → Option Worker
  | 0, w => some w
  | k + 1, w =>
    if 0 < InstrProvider.getScopeSize w.instrPdr then
      match runLoopStep h w with
      | some (.Success, w1) => runLoopIter h k w1
      | _ => none
    else none

/-- The constant instructions `op c` for a list of opcode and constant pairs. -/
def constInstrs (cs : List (OpCode × Value)) : InstrVec :=
  cs.map (fun c => Instruction.const c.1 c.2)

/-- The body `[i32.const 2; i32.const 3]`. -/
def twoConstBody : InstrVec := [.const .I32__const (.i32 2), .const .I32__const (.i32 3)]

/-- The body `[local.get 0; i32.clz]`; `i32.clz` is a numeric opcode the
dispatcher does not support. -/
def teeCallerBody : InstrVec := [.variable .Local__get 0, .numeric .I32__clz]

/-- The body `[i32.const 7; local.tee 0; local.get 0]`. -/
def teeCalleeBody : InstrVec :=
  [.const .I32__const (.i32 7), .variable .Local__tee 0, .variable .Local__get 0]

/-- A store with two functions `() -> ()`, each with one declared i32 local:
function 0 has the body `teeCallerBody`, function 1 the body `teeCalleeBody`. -/
def teeStore : StoreManager where
  funcs := [{ moduleAddr := 0, typeIdx := 0, locals := [(1, .I32)], instrs := teeCallerBody },
            { moduleAddr := 0, typeIdx := 0, locals := [(1, .I32)], instrs := teeCalleeBody }]
  modules := [{ funcTypes := [{ params := [], returns := [] }],
                funcAddrs := [0, 1], memAddrs := [], globalAddrs := [] }]
  mems := []
  globals := []

/-- A worker over `teeStore`, given by its state, stack, scopes and cached
frame pointer. -/
def teeWorker (state : State) (stack : Stack) (pdr : InstrProvider) (cf : Option Nat) :
    Worker where
  state := state
  stack := stack
  instrPdr := pdr
  store := teeStore
  currentFrame := cf
  args := []

/-- A store with one module whose global 0 is the immutable global `i32 1`. -/
def immutableGlobalStore : StoreManager where
  funcs := []
  modules := [{ funcTypes := [], funcAddrs := [], memAddrs := [], globalAddrs := [0] }]
  mems := []
  globals := [{ value := .i32 1, isMutable := false }]

/-- A worker over `immutableGlobalStore` with an `i32 9` on top of a frame of module 0. -/
def immutableGlobalWorker : Worker where
  state := .Active
  stack := [.value (.i32 9), .label ⟨0, none⟩, .frame ⟨0, 0, []⟩]
  instrPdr := []
  store := immutableGlobalStore
  currentFrame := none
  args := []

/-- The expression `[<reserved opcode>; i32.const 5]`: its first instruction
carries an opcode of none of the six families. -/
def reservedBody : InstrVec := [.numeric .Reserved, .const .I32__const (.i32 5)]

/-- The number of LabelEntry plus FrameEntry records of a stack. -/
def countLabelsFrames (s : Stack) : Nat :=
  (s.filter (fun e => e.isLabel || e.isFrame)).length

/-- Whether a scope is a Block or a FunctionCall scope. -/
def Scope.isBlockOrCall (sc : Scope) : Bool :=
  decide (sc.kind = .Block) || decide (sc.kind = .FunctionCall)

/-- The number of Block plus FunctionCall scopes of an instruction provider. -/
def countBlockCallScopes (p : InstrProvider) : Nat :=
  (p.filter Scope.isBlockOrCall).length

/-- The lockstep predicate: as many labels and frames on the stack as Block
and FunctionCall scopes in the instruction provider. -/
def lockstep (w : Worker) : Prop :=
  countLabelsFrames w.stack = countBlockCallScopes w.instrPdr

/-- The lockstep predicate is decidable. -/
instance lockstepDecidable (w : Worker) : Decidable (lockstep w) :=
  inferInstanceAs (Decidable (countLabelsFrames w.stack = countBlockCallScopes w.instrPdr))

/-- A numeric helper that never reports the status Unreachable. -/
def numericNeverUnreachable (f : IntT → Value → Value → Worker → Outcome) : Prop :=
  ∀ t a b w st w1, f t a b w = some (st, w1) → st ≠ .Unreachable

/-- A memory helper that never reports the status Unreachable. -/
def memoryNeverUnreachable (f : IntT → Instruction → Worker → Outcome) : Prop :=
  ∀ t i w st w1, f t i w = some (st, w1) → st ≠ .Unreachable

/-- Modelled from the spec: the numeric helpers report Success, a type
mismatch or an arithmetic trap, the memory helpers Success, a type mismatch or
an out-of-bounds access; none of them reports Unreachable, which is the status
of the `unreachable` instruction alone. -/
def Helpers.neverUnreachable (h : Helpers) : Prop :=
  numericNeverUnreachable h.runAddOp ∧ numericNeverUnreachable h.runSubOp
  ∧ numericNeverUnreachable h.runMulOp ∧ numericNeverUnreachable h.runDivUOp
  ∧ numericNeverUnreachable h.runModUOp ∧ numericNeverUnreachable h.runLeSOp
  ∧ numericNeverUnreachable h.runEqOp ∧ numericNeverUnreachable h.runNeOp
  ∧ numericNeverUnreachable h.runLtUOp
  ∧ memoryNeverUnreachable h.runLoadOp ∧ memoryNeverUnreachable h.runStoreOp

/-! ## The host function `fd_read` -/

/-- Little-endian bytes of a value, `length` of them. -/
def leEncode (value : Nat) : Nat → List Nat
  | 0 => []
  | length + 1 => value % 256 :: leEncode (value / 256) length

/-- The value of little-endian bytes. -/
def leDecode : List Nat → Nat
  | [] => 0
  | b :: bs => b + 256 * leDecode bs

/-- A byte buffer with `bytes` written over it from offset `off` on. -/
def writeBytes (data : List Nat) (off : Nat) (bytes : List Nat) : List Nat :=
  data.take off ++ bytes ++ data.drop (off + bytes.length)

/-- The `n` bytes of a memory from offset `off` on. -/
def MemoryInstance.bytesAt (m : MemoryInstance) (off n : Nat) : List Nat :=
  (m.data.drop off).take n

/-- Modelled from the spec: `MemoryInstance::loadValue`, a little-endian load
of `length` bytes with a bounds check. -/
def MemoryInstance.loadValue (m : MemoryInstance) (offset length : Nat) : Except ErrCode Nat :=
  if offset + length ≤ m.data.length then .ok (leDecode (m.bytesAt offset length))
  else .error .MemoryOutOfBounds

/-- Modelled from the spec: `MemoryInstance::storeValue`, a little-endian
store of `length` bytes with a bounds check. -/
def MemoryInstance.storeValue (m : MemoryInstance) (value offset length : Nat) :
    Except ErrCode MemoryInstance :=
  if offset + length ≤ m.data.length then
    .ok { data := writeBytes m.data offset (leEncode value length) }
  else .error .MemoryOutOfBounds

/-- The memory after read(2) has placed `bytes` behind the raw pointer
`getPointer(ptr)`, which is not bounds checked; bytes that run past the end
of the memory have no place in the model. -/
def MemoryInstance.fill (m : MemoryInstance) (ptr : Nat) (bytes : List Nat) :
    Option MemoryInstance :=
  if ptr + bytes.length ≤ m.data.length then some { data := writeBytes m.data ptr bytes }
  else none

/-- Modelled from the spec: `ModuleInstance::getMemAddr`. -/
def ModuleInstance.getMemAddr (m : ModuleInstance) (idx : Nat) : Except ErrCode Nat :=
  lookup m.memAddrs idx

/-- Modelled from the spec: `StoreManager::getMemory`. -/
def StoreManager.getMemory (st : StoreManager) (addr : Nat) : Except ErrCode MemoryInstance :=
  lookup st.mems addr

/-- The store once the memory instance at `addr` has become `m`: the host
function writes through a pointer into the store. -/
def StoreManager.setMemory (st : StoreManager) (addr : Nat) (m : MemoryInstance) :
    StoreManager :=
  { st with mems := st.mems.set addr m }

/-- Modelled from the spec: `retrieveValue<uint32_t>` of `util.h`: the 32-bit
integer a value holds; a value of another tag holds none. -/
def retrieveU32 : Value → Option Nat
  | .i32 n => some (n % 4294967296)
  | _ => none

/-- The answer of one call of read(2): `none` for the return value -1,
`some bytes` for a read that placed `bytes` in the buffer and returned their
number. -/
abbrev ReadAnswer := Option (List Nat)

/-- The read(2) of the host: from a state of the descriptors, a descriptor
and a byte count to the answer and the next state. -/
abbrev ReadFn (σ : Type) := σ → Nat → Nat → ReadAnswer × σ

/-- How the reading loop of `WasiFdRead::run` ends: with a `return Status`
from inside the loop, or at its end with the byte count and `ErrNo`. -/
inductive LoopExit where
  | returned (status : ErrCode)
  | finished (nRead : Nat) (errNo : Nat)
  deriving DecidableEq, Repr

namespace WasiFdRead

/-- The loop `for (I = 0; I < IOVSCnt && ErrNo == 0; I++)` of `WasiFdRead::run`,
entered with `ErrNo == 0` and `n` iterations to go.  The return value of
read(2) is assigned to an `unsigned int`, so -1 becomes 4294967295, and the
test `SizeRead == -1` compares with that number. -/
def readLoop {σ : Type} (read : ReadFn σ) :
    Nat → σ → MemoryInstance → Nat → Nat → Nat → Option (LoopExit × MemoryInstance × σ)
  | 0, env, mem, _, _, nRead => some (.finished nRead 0, mem, env)
  | n + 1, env, mem, fd, iovsPtr, nRead =>
    match mem.loadValue iovsPtr 4 with
    | .error status => some (.returned status, mem, env)
    | .ok bufPtr =>
      match mem.loadValue ((iovsPtr + 4) % 4294967296) 4 with
      | .error status => some (.returned status, mem, env)
      | .ok bufLen =>
        match read env fd (bufLen % 4294967296) with
        | (none, env1) => some (.finished nRead 1, mem, env1)
        | (some bytes, env1) =>
          match mem.fill bufPtr bytes with
          | none => none
          | some mem1 =>
            let sizeRead := bytes.length % 4294967296
            if sizeRead = 4294967295 then some (.finished nRead 1, mem1, env1)
            else
              readLoop read n env1 mem1 fd ((iovsPtr + 8) % 4294967296)
                ((nRead + sizeRead) % 4294967296)

/-- The function `WasiFdRead::run`.  `args` is the argument vector, `res` the
result vector; a descriptor state and the store are threaded through.  The
descriptor is taken from `Args[3]`, the iovec pointer from `Args[2]`, the
iovec count from `Args[1]` and the pointer for the byte count from `Args[0]`. -/
def run {σ : Type} (read : ReadFn σ) (env : σ) (args res : List Value)
    (store : StoreManager) (modInst : ModuleInstance) :
    Option (ErrCode × List Value × StoreManager × σ) :=
  if args.length ≠ 4 then some (.CallFunctionError, res, store, env)
  else
    match (args.get? 3).bind retrieveU32, (args.get? 2).bind retrieveU32,
          (args.get? 1).bind retrieveU32, (args.get? 0).bind retrieveU32 with
    | some fd, some iovsPtr, some iovsCnt, some nReadPtr =>
      match modInst.getMemAddr 0 with
      | .error status => some (status, res, store, env)
      | .ok memoryAddr =>
        match store.getMemory memoryAddr with
        | .error status => some (status, res, store, env)
        | .ok memInst =>
          match readLoop read iovsCnt env memInst fd iovsPtr 0 with
          | none => none
          | some (.returned status, mem1, env1) =>
            some (status, res, store.setMemory memoryAddr mem1, env1)
          | some (.finished nRead errNo, mem1, env1) =>
            match mem1.storeValue nRead nReadPtr 4 with
            | .error status => some (status, res, store.setMemory memoryAddr mem1, env1)
            | .ok mem2 =>
              match res with
              | [] => none
              | _ :: _ =>
                some (.Success, res.set 0 (.i32 (if errNo = 0 then 0 else 1)),
                  store.setMemory memoryAddr mem2, env1)
    | _, _, _, _ => none

end WasiFdRead

/-- A read(2) over a table of descriptors, each open one with its unread
bytes: a read on an open descriptor delivers the next bytes, `count` at most;
a read on any other descriptor fails. -/
def fixtureRead : ReadFn (List (Option (List Nat)))
  | table, fd, count =>
    match table.get? fd with
    | some (some bytes) => (some (bytes.take count), table.set fd (some (bytes.drop count)))
    | _ => (none, table)

/-- A memory of 24 bytes: a buffer at offset 0, one iovec record `(ptr 0,
len 2)` at offset 8 and the slot for the byte count at offset 16. -/
def fdReadMemory : MemoryInstance where
  data := [0, 0, 0, 0, 0, 0, 0, 0, 0, 0, 0, 0, 2, 0, 0, 0, 0, 0, 0, 0, 0, 0, 0, 0]

/-- A module instance whose memory 0 is the memory at store address 0. -/
def fdReadModule : ModuleInstance where
  funcTypes := []
  funcAddrs := []
  memAddrs := [0]
  globalAddrs := []

/-- A store holding a given memory at address 0. -/
def fdReadStore (m : MemoryInstance) : StoreManager where
  funcs := []
  modules := [fdReadModule]
  mems := [m]
  globals := []

/-- One iovec of a call of `fd_read`: the pointer and the length of its
buffer as the iovec array gives them, and the bytes the read into it delivers. -/
structure IoRecord where
  bufPtr : Nat
  bufLen : Nat
  data : List Nat

/-- Two regions, each a start and a size, that do not overlap. -/
def regionsApart (a n b m : Nat) : Prop := a + n ≤ b ∨ b + m ≤ a

/-- Whether two regions overlap is decidable. -/
instance regionsApartDecidable (a n b m : Nat) : Decidable (regionsApart a n b m) :=
  inferInstanceAs (Decidable (a + n ≤ b ∨ b + m ≤ a))

/-- The iovec array at `ptr` reads, record by record, as the buffer pointers
and lengths of `ios`. -/
def iovecsAt (m : MemoryInstance) : Nat → List IoRecord → Prop
  | _, [] => True
  | ptr, io :: rest =>
    m.loadValue ptr 4 = .ok io.bufPtr ∧ m.loadValue (ptr + 4) 4 = .ok io.bufLen
      ∧ iovecsAt m (ptr + 8) rest

/-- Successive reads on `fd`, one per record with the length of its buffer as
count, all succeed, deliver the bytes of the records and end in `envEnd`. -/
def readsGive {σ : Type} (read : ReadFn σ) (fd : Nat) : σ → List IoRecord → σ → Prop
  | env, [], envEnd => envEnd = env
  | env, io :: rest, envEnd =>
    (read env fd io.bufLen).1 = some io.data
      ∧ readsGive read fd (read env fd io.bufLen).2 rest envEnd

/-- The bytes of a memory after the data of every record has been placed in
its buffer, record by record. -/
def fillAll (data : List Nat) : List IoRecord → List Nat
  | [] => data
  | io :: rest => fillAll (writeBytes data io.bufPtr io.data) rest

/-- The number of bytes the reads deliver in all. -/
def totalRead (ios : List IoRecord) : Nat := (ios.map (fun io => io.data.length)).sum

/-- A read(2) that delivers the one byte `0xAA` on its first call and fails
on every later call; the state counts the calls. -/
def brokenRead : ReadFn Nat
  | calls, _, count =>
    if calls = 0 ∧ 0 < count then (some [170], 1) else (none, calls + 1)

/-- A memory of 28 bytes: buffers at offset 0, two iovec records `(ptr 0,
len 2)` and `(ptr 2, len 2)` at offsets 8 and 16, and the slot for the byte
count at offset 24. -/
def fdReadMemoryTwo : MemoryInstance where
  data := [0, 0, 0, 0, 0, 0, 0, 0, 0, 0, 0, 0, 2, 0, 0, 0, 2, 0, 0, 0, 2, 0, 0, 0,
           0, 0, 0, 0]

/-- A stack record with the contents of the locals left out: a frame keeps
its module address and its arity. -/
def StackEntry.shape : StackEntry → StackEntry
  | .frame f => .frame { f with locals := [] }
  | e => e

/-- One iteration of the loop, unfolded. -/
theorem runLoopWhile_step (h : Helpers) (fuel : Nat) (w w1 : Worker) (status1 : ErrCode)
    (hs : 0 < w.instrPdr.length) (hstep : runLoopStep h w = some (status1, w1)) :
    runLoopWhile h (fuel + 1) .Success w = runLoopWhile h fuel status1 w1 := by
  rw [runLoopWhile.eq_def]
  simp [InstrProvider.getScopeSize, hs, hstep]

/-- The loop exits when no scope is left or the status is a fault. -/
theorem runLoopWhile_done (h : Helpers) (fuel : Nat) (status : ErrCode) (w : Worker)
    (hs : w.instrPdr = [] ∨ status ≠ .Success) :
    runLoopWhile h fuel status w = some (status, w) := by
  rw [runLoopWhile.eq_def]
  rcases hs with hs | hs
  · simp [InstrProvider.getScopeSize, hs]
  · simp [hs]

/-- The epilogue of `runLoop` applied to the result of its loop. -/
theorem runLoop_of_while (h : Helpers) (fuel : Nat) (w w1 : Worker) (status : ErrCode)
    (hst : w.state = .CodeSet)
    (hrun : runLoopWhile h fuel .Success { w with state := .Active } = some (status, w1)) :
    runLoop h fuel w =
      if w1.state = .Unreachable then some (.Unreachable, w1)
      else some (status, { w1 with state := .Inited }) := by
  unfold runLoop
  simp [hst, hrun]

/-- After a successful `invokeFunction`, `runStartFunction` is the driver loop. -/
theorem runStartFunction_of_invoke (h : Helpers) (fuel funcAddr : Nat) (w w1 : Worker)
    (hst : w.state = .Inited) (hinv : invokeFunction funcAddr w = some (.Success, w1)) :
    runStartFunction h fuel funcAddr w = runLoop h fuel { w1 with state := .CodeSet } := by
  unfold runStartFunction
  simp [hst, hinv]

/-- The refresh of the cached frame pointer leaves the stack alone. -/
theorem refreshCurrentFrame_stack (w : Worker) : (refreshCurrentFrame w).stack = w.stack := by
  unfold refreshCurrentFrame
  split <;> rfl

/-- The refresh of the cached frame pointer leaves the store alone. -/
theorem refreshCurrentFrame_store (w : Worker) : (refreshCurrentFrame w).store = w.store := by
  unfold refreshCurrentFrame
  split <;> rfl

/-- Writing back the element already stored changes nothing. -/
theorem list_set_same {α : Type} (xs : List α) (i : Nat) (x : α) (hx : xs.get? i = some x) :
    xs.set i x = xs := by
  induction xs generalizing i with
  | nil => rfl
  | cons y ys ih =>
    cases i with
    | zero => simp at hx; simp [hx]
    | succ j => simp at hx; simp [ih j (by simpa using hx)]

/-- A resolved global is the one stored at the resolved address. -/
theorem resolveGlobal_lookup (w : Worker) (index addr : Nat) (g : GlobalInstance)
    (hres : resolveGlobal w index = some (addr, g)) : w.store.globals.get? addr = some g := by
  unfold resolveGlobal at hres
  split at hres
  · exact absurd hres (by simp)
  · split at hres
    · exact absurd hres (by simp)
    · split at hres
      · exact absurd hres (by simp)
      · split at hres
        · exact absurd hres (by simp)
        · rename_i ga _ gl hgl
          simp at hres
          obtain ⟨h1, h2⟩ := hres
          subst h1; subst h2
          unfold StoreManager.getGlobal lookup at hgl
          split at hgl
          · rename_i x hx
            simp at hgl
            rw [hx, hgl]
          · exact absurd hgl (by simp)

/-- Setting an immutable global leaves the store as it is. -/
theorem setGlobalValue_immutable (st : StoreManager) (addr : Nat) (g : GlobalInstance) (v : Value)
    (hg : st.globals.get? addr = some g) (himm : g.isMutable = false) :
    st.setGlobalValue addr v = st := by
  unfold StoreManager.setGlobalValue
  rw [hg]
  simp only [GlobalInstance.setValue, himm]
  simp [list_set_same st.globals addr g hg]

/-- Popping as many values as lie on top hands them out in pop order. -/
theorem popVals_values (vs : List Value) (S : Stack) :
    popVals vs.length (vs.map StackEntry.value ++ S) = (vs.map some, S) := by
  induction vs with
  | nil => rfl
  | cons v vs ih => simp [popVals, StackMgr.popValue, ih]

/-- Pushing a buffer of values back restores their original order. -/
theorem pushValsReversed_values (vs : List Value) (S : Stack) :
    pushValsReversed (vs.map some) S = some (vs.map StackEntry.value ++ S) := by
  induction vs generalizing S with
  | nil => rfl
  | cons v vs ih =>
    have := ih S
    simp only [pushValsReversed] at this ⊢
    simp [List.foldlM_append, this, pushPtr, StackMgr.push]

/-- After `k` successful iterations the loop goes on from the worker reached. -/
theorem runLoopWhile_iter (h : Helpers) (k : Nat) :
    ∀ (w wk : Worker) (fuel : Nat), runLoopIter h k w = some wk →
      runLoopWhile h (k + fuel) .Success w = runLoopWhile h fuel .Success wk := by
  induction k with
  | zero =>
    intro w wk fuel hk
    simp [runLoopIter] at hk
    simp [hk]
  | succ k ih =>
    intro w wk fuel hk
    rw [runLoopIter] at hk
    split at hk
    · rename_i hs
      split at hk
      · rename_i w1 hstep
        have := runLoopWhile_step h (k + fuel) w w1 .Success hs hstep
        rw [show k + 1 + fuel = k + fuel + 1 by omega, this]
        exact ih w1 wk fuel hk
      · exact absurd hk (by simp)
    · exact absurd hk (by simp)

/-- The loop of `leaveBlock` stops at the first label below the values. -/
theorem leaveBlockPop_values (vals : List Value) (l : LabelEntry) (rest : Stack) :
    leaveBlockPop (vals.map StackEntry.value ++ .label l :: rest)
      = some (vals.map some, .label l :: rest) := by
  induction vals with
  | nil => rfl
  | cons v vals ih => simp [leaveBlockPop, ih]

/-- The effect of `leaveBlock` on values over a label. -/
theorem leaveBlock_values (w : Worker) (vals : List Value) (l : LabelEntry) (rest : Stack)
    (hstack : w.stack = vals.map StackEntry.value ++ .label l :: rest) :
    leaveBlock w = some (.Success,
      { w with stack := vals.map StackEntry.value ++ rest, instrPdr := w.instrPdr.tail }) := by
  unfold leaveBlock
  rw [hstack, leaveBlockPop_values]
  simp only [StackMgr.pop, pushValsReversed_values]
  cases w.instrPdr <;> rfl

/-- The frame under a stack segment sits at the position given by what lies below it. -/
theorem frameAt_below (top : Stack) (f : FrameEntry) (S : Stack) :
    StackMgr.frameAt (top ++ .frame f :: S) S.length = some f := by
  induction top with
  | nil => simp [StackMgr.frameAt]
  | cons e top ih =>
    rw [List.cons_append]
    unfold StackMgr.frameAt
    split
    · rename_i heq
      simp at heq
      omega
    · exact ih

/-- Dropping one more element is the tail of the drop. -/
theorem drop_tail {α : Type} (p : List α) (k : Nat) : (p.drop k).tail = p.drop (k + 1) := by
  induction p generalizing k with
  | nil => simp
  | cons x xs ih =>
    cases k with
    | zero => simp
    | succ j => simp

/-- The topmost frame under a frame-free segment. -/
theorem getCurrentFrame_below (top : Stack) (f : FrameEntry) (S : Stack)
    (htop : ∀ e ∈ top, e.isFrame = false) :
    StackMgr.getCurrentFrame (top ++ .frame f :: S) = some S.length := by
  induction top with
  | nil => simp [StackMgr.getCurrentFrame]
  | cons e top ih =>
    have he : e.isFrame = false := htop e (by simp)
    have ih2 := ih (fun x hx => htop x (by simp [hx]))
    cases e with
    | frame g => simp [StackEntry.isFrame] at he
    | value v => simpa [StackMgr.getCurrentFrame] using ih2
    | label l => simpa [StackMgr.getCurrentFrame] using ih2

/-- The provider left by `popInstrs`. -/
theorem popInstrs_tail (p : InstrProvider) : (InstrProvider.popInstrs p).2 = p.tail := by
  cases p <;> rfl

/-- A value does not count as a label. -/
theorem countLabels_value (v : Value) (s : Stack) :
    countLabels (.value v :: s) = countLabels s := by
  simp [countLabels, StackEntry.isLabel]

/-- A label counts once. -/
theorem countLabels_label (l : LabelEntry) (s : Stack) :
    countLabels (.label l :: s) = countLabels s + 1 := by
  simp [countLabels, StackEntry.isLabel]

/-- Unwinding a frame-free segment pops one scope per label. -/
theorem unwindToFrame_mid (mid : Stack) (f : FrameEntry) (S : Stack)
    (hmid : ∀ e ∈ mid, e.isFrame = false) :
    ∀ p : InstrProvider,
      unwindToFrame (mid ++ .frame f :: S) p = some (.frame f :: S, p.drop (countLabels mid)) := by
  induction mid with
  | nil => intro p; simp [unwindToFrame, countLabels]
  | cons e mid ih =>
    intro p
    have he : e.isFrame = false := hmid e (by simp)
    have ih2 := ih (fun x hx => hmid x (by simp [hx]))
    cases e with
    | frame g => simp [StackEntry.isFrame] at he
    | value v =>
      rw [List.cons_append, unwindToFrame, ih2, countLabels_value]
    | label l =>
      rw [List.cons_append, unwindToFrame, ih2, countLabels_label, popInstrs_tail]
      cases p <;> simp

/-- The effect of `returnFunction` on `arity` values over a frame-free segment over the frame. -/
theorem returnFunction_unwinds (w : Worker) (f : FrameEntry) (rets : List Value) (mid S : Stack)
    (hmid : ∀ e ∈ mid, e.isFrame = false) (hlen : rets.length = f.arity)
    (hstack : w.stack = rets.map StackEntry.value ++ (mid ++ .frame f :: S)) :
    returnFunction w = some (.Success,
      { w with stack := rets.map StackEntry.value ++ S,
               instrPdr := w.instrPdr.drop (countLabels mid + 1),
               currentFrame := some S.length }) := by
  have htop : ∀ e ∈ rets.map StackEntry.value ++ mid, e.isFrame = false := by
    intro e he
    rcases List.mem_append.mp he with h1 | h1
    · obtain ⟨v, _, rfl⟩ := List.mem_map.mp h1
      rfl
    · exact hmid e h1
  have hcf : StackMgr.getCurrentFrame w.stack = some S.length := by
    rw [hstack, ← List.append_assoc]
    exact getCurrentFrame_below _ f S htop
  have hfa : StackMgr.frameAt w.stack S.length = some f := by
    rw [hstack, ← List.append_assoc]
    exact frameAt_below _ f S
  unfold returnFunction
  simp only [refreshCurrentFrame, hcf, currentFrameEntry, hfa]
  rw [hstack, ← hlen, popVals_values, unwindToFrame_mid mid f S hmid]
  simp only [StackMgr.pop, pushValsReversed_values, popInstrs_tail]
  rw [drop_tail]

/-- No element at or past the end. -/
theorem get?_beyond_length {α : Type} (xs : List α) (cur : Nat) (hcur : xs.length ≤ cur) :
    xs.get? cur = none := by
  simp [List.get?_eq_none, hcur]

/-- At the end of a Block scope the iteration is `leaveBlock`. -/
theorem runLoopStep_block_end (h : Helpers) (w : Worker) (seq : InstrVec) (cur : Nat)
    (p : InstrProvider) (hcur : seq.length ≤ cur) (hpdr : w.instrPdr = ⟨.Block, seq, cur⟩ :: p) :
    runLoopStep h w = leaveBlock w := by
  cases w with
  | mk st stk pdr sto cf ar =>
    simp only at hpdr
    subst hpdr
    have hn : seq[cur]? = none := List.getElem?_eq_none_iff.mpr hcur
    unfold runLoopStep
    simp [InstrProvider.getNextInstr, hn, InstrProvider.getTopScopeType]

/-- At the end of a FunctionCall scope the iteration is `returnFunction`. -/
theorem runLoopStep_call_end (h : Helpers) (w : Worker) (seq : InstrVec) (cur : Nat)
    (p : InstrProvider) (hcur : seq.length ≤ cur)
    (hpdr : w.instrPdr = ⟨.FunctionCall, seq, cur⟩ :: p) :
    runLoopStep h w = returnFunction w := by
  cases w with
  | mk st stk pdr sto cf ar =>
    simp only at hpdr
    subst hpdr
    have hn : seq[cur]? = none := List.getElem?_eq_none_iff.mpr hcur
    unfold runLoopStep
    simp [InstrProvider.getNextInstr, hn, InstrProvider.getTopScopeType]

/-- A segment of values holds no label. -/
theorem countLabels_values (vs : List Value) : countLabels (vs.map StackEntry.value) = 0 := by
  induction vs with
  | nil => rfl
  | cons v vs ih => rw [List.map_cons, countLabels_value, ih]

/-- A buffer without null pointers reads back as its values. -/
theorem derefAll_map_some (vs : List Value) : derefAll (vs.map some) = some vs := by
  induction vs with
  | nil => rfl
  | cons v vs ih => simp [derefAll, ih]

/-- The effect of `invokeFunction` when the lookups succeed and the arguments are values. -/
theorem invokeFunction_values (w : Worker) (funcAddr : Nat) (f : FunctionInstance)
    (m : ModuleInstance) (ft : FType) (args : List Value) (S : Stack)
    (hf : w.store.getFunction funcAddr = .ok f)
    (hm : w.store.getModule f.moduleAddr = .ok m)
    (ht : m.getFuncType f.typeIdx = .ok ft)
    (hlen : args.length = ft.params.length)
    (hstack : w.stack = args.reverse.map StackEntry.value ++ S) :
    invokeFunction funcAddr w = some (.Success,
      { w with
        stack := .label ⟨ft.returns.length, none⟩
          :: .frame ⟨f.moduleAddr, ft.returns.length, args ++ zeroLocals f.locals⟩ :: S,
        instrPdr := ⟨.Block, f.instrs, 0⟩ :: ⟨.FunctionCall, [], 0⟩ :: w.instrPdr }) := by
  have hpop : popVals ft.params.length w.stack = (args.reverse.map some, S) := by
    rw [hstack, ← hlen, ← List.length_reverse args]
    exact popVals_values args.reverse S
  unfold invokeFunction
  simp [hf, hm, ht, hpop, makeFrame, derefAll_map_some, enterBlock,
    StackMgr.push, InstrProvider.pushInstrs]

/-- The two scope exits at the end of a function body: `leaveBlock`, then `returnFunction`. -/
theorem runLoopWhile_teardown (h : Helpers) (fuel : Nat) (w : Worker) (vals : List Value)
    (l : LabelEntry) (fr : FrameEntry) (S : Stack) (body seq : InstrVec) (cur cur2 : Nat)
    (hpdr : w.instrPdr = [⟨.Block, body, cur⟩, ⟨.FunctionCall, seq, cur2⟩])
    (hcur : body.length ≤ cur) (hcur2 : seq.length ≤ cur2)
    (hstack : w.stack = vals.map StackEntry.value ++ .label l :: .frame fr :: S)
    (hvals : fr.arity ≤ vals.length) :
    runLoopWhile h (fuel + 2) .Success w = some (.Success,
      { w with stack := (vals.take fr.arity).map StackEntry.value ++ S,
               instrPdr := [],
               currentFrame := some S.length }) := by
  have hs1 : runLoopStep h w = some (.Success,
      { w with stack := vals.map StackEntry.value ++ .frame fr :: S,
               instrPdr := [⟨.FunctionCall, seq, cur2⟩] }) := by
    rw [runLoopStep_block_end h w body cur _ hcur hpdr, leaveBlock_values w vals l _ hstack, hpdr]
    rfl
  have hsplit : vals.map StackEntry.value ++ .frame fr :: S
      = (vals.take fr.arity).map StackEntry.value
          ++ ((vals.drop fr.arity).map StackEntry.value ++ .frame fr :: S) := by
    rw [← List.append_assoc, ← List.map_append, List.take_append_drop]
  have hmid : ∀ e ∈ (vals.drop fr.arity).map StackEntry.value, e.isFrame = false := by
    intro e he
    obtain ⟨v, _, rfl⟩ := List.mem_map.mp he
    rfl
  have hcount : countLabels ((vals.drop fr.arity).map StackEntry.value) = 0 :=
    countLabels_values _
  have hs2 : runLoopStep h
      { w with stack := vals.map StackEntry.value ++ .frame fr :: S,
               instrPdr := [⟨.FunctionCall, seq, cur2⟩] }
      = some (.Success,
        { w with stack := (vals.take fr.arity).map StackEntry.value ++ S,
                 instrPdr := [],
                 currentFrame := some S.length }) := by
    rw [runLoopStep_call_end h _ seq cur2 [] hcur2 rfl,
      returnFunction_unwinds _ fr (vals.take fr.arity) _ S hmid
        (by simp [List.length_take, hvals]) hsplit, hcount]
    rfl
  rw [runLoopWhile_step h (fuel + 1) w _ _ (by rw [hpdr]; simp) hs1,
    runLoopWhile_step h fuel _ _ _ (by simp) hs2,
    runLoopWhile_done h fuel _ _ (Or.inl rfl)]

/-- The element right after a prefix. -/
theorem get?_append_at_length {α : Type} (pre : List α) (x : α) (rest : List α) :
    (pre ++ x :: rest).get? pre.length = some x := by
  induction pre with
  | nil => rfl
  | cons y ys ih => simpa using ih

/-- No element at the end. -/
theorem get?_at_length {α : Type} (xs : List α) : xs.get? xs.length = none := by
  induction xs with
  | nil => rfl
  | cons y ys ih => simp

/-- An iteration that fetches a constant instruction pushes its value. -/
theorem runLoopStep_const (h : Helpers) (w : Worker) (kind : SeqType) (pre rest : InstrVec)
    (op : OpCode) (v : Value) (p : InstrProvider) (hop : isConstNumericOp op = true)
    (hpdr : w.instrPdr = ⟨kind, pre ++ Instruction.const op v :: rest, pre.length⟩ :: p) :
    runLoopStep h w = some (.Success,
      { w with stack := .value v :: w.stack,
               instrPdr := ⟨kind, pre ++ Instruction.const op v :: rest, pre.length + 1⟩ :: p }) := by
  have hget : InstrProvider.getNextInstr w.instrPdr = (some (Instruction.const op v),
      ⟨kind, pre ++ Instruction.const op v :: rest, pre.length + 1⟩ :: p) := by
    rw [hpdr]
    simp only [InstrProvider.getNextInstr, get?_append_at_length]
  unfold runLoopStep
  simp only [hget]
  simp [Instruction.getOpCode, hop, runConstNumericOp, StackMgr.push]

/-- At the end of an Expression scope the iteration pops the scope. -/
theorem runLoopStep_expression_end (h : Helpers) (w : Worker) (seq : InstrVec) (p : InstrProvider)
    (hpdr : w.instrPdr = ⟨.Expression, seq, seq.length⟩ :: p) :
    runLoopStep h w = some (.Success, { w with instrPdr := p }) := by
  have hget : InstrProvider.getNextInstr w.instrPdr = (none, ⟨.Expression, seq, seq.length⟩ :: p) := by
    rw [hpdr]
    simp only [InstrProvider.getNextInstr, get?_at_length]
  unfold runLoopStep
  simp only [hget]
  simp [InstrProvider.getTopScopeType, InstrProvider.popInstrs]

/-- The loop over the rest of a sequence of constant instructions. -/
theorem runLoopWhile_consts (h : Helpers) (suf : List (OpCode × Value)) :
    ∀ (w : Worker) (pre : InstrVec) (fuel : Nat),
      (∀ c ∈ suf, isConstNumericOp c.1 = true) →
      suf.length + 1 ≤ fuel →
      w.instrPdr = [⟨.Expression, pre ++ constInstrs suf, pre.length⟩] →
      runLoopWhile h fuel .Success w = some (.Success,
        { w with stack := (suf.map (fun c => StackEntry.value c.2)).reverse ++ w.stack,
                 instrPdr := [] }) := by
  induction suf with
  | nil =>
    intro w pre fuel _ hfuel hpdr
    obtain ⟨f, rfl⟩ : ∃ f, fuel = f + 1 := ⟨fuel - 1, by omega⟩
    have hpdr2 : w.instrPdr = [⟨.Expression, pre ++ constInstrs [], (pre ++ constInstrs []).length⟩] := by
      rw [hpdr]; simp [constInstrs]
    rw [runLoopWhile_step h f w _ _ (by rw [hpdr]; simp) (runLoopStep_expression_end h w _ _ hpdr2)]
    rw [runLoopWhile_done h f _ _ (Or.inl rfl)]
    simp
  | cons c suf ih =>
    intro w pre fuel hops hfuel hpdr
    obtain ⟨f, rfl⟩ : ∃ f, fuel = f + 1 := ⟨fuel - 1, by simp at hfuel; omega⟩
    have hc : isConstNumericOp c.1 = true := hops c (by simp)
    have hpdr2 : w.instrPdr
        = [⟨.Expression, pre ++ Instruction.const c.1 c.2 :: constInstrs suf, pre.length⟩] := by
      rw [hpdr]; simp [constInstrs]
    rw [runLoopWhile_step h f w _ _ (by rw [hpdr]; simp) (runLoopStep_const h w _ _ _ _ _ _ hc hpdr2)]
    rw [ih _ (pre ++ [Instruction.const c.1 c.2]) f (fun d hd => hops d (by simp [hd]))
      (by simp at hfuel; omega) (by simp)]
    simp

/-! ## Claims about `unreachable` and the control dispatcher -/

/-- C1 (the code departs from the claim).  A function `() -> ()` with body
`[i32.const 1; unreachable]` is started on an empty stack.  The iteration
that executes `unreachable` on the stack `[frame, label, i32 1]` hands the
status Success to the loop, so the loop goes on: `leaveBlock` and then
`returnFunction` run, and the driver ends with status Unreachable in state
Unreachable on an EMPTY stack, the `i32 1` having been consumed. -/
theorem unreachable_run_unwinds_stack (h : Helpers) (fuel : Nat) :
    runLoopStep h
        { state := .Active,
          stack := [.value (.i32 1), .label ⟨0, none⟩, .frame ⟨0, 0, []⟩],
          instrPdr := [⟨.Block, unreachableBody, 1⟩, ⟨.FunctionCall, [], 0⟩],
          store := oneFunctionStore [] [] [] unreachableBody, currentFrame := none, args := [] }
      = some (.Success,
        { state := .Unreachable,
          stack := [.value (.i32 1), .label ⟨0, none⟩, .frame ⟨0, 0, []⟩],
          instrPdr := [⟨.Block, unreachableBody, 2⟩, ⟨.FunctionCall, [], 0⟩],
          store := oneFunctionStore [] [] [] unreachableBody, currentFrame := none, args := [] })
    ∧ runStartFunction h (fuel + 4) 0 (freshWorker (oneFunctionStore [] [] [] unreachableBody) [])
      = some (.Unreachable,
        { state := .Unreachable, stack := [], instrPdr := [],
          store := oneFunctionStore [] [] [] unreachableBody,
          currentFrame := some 0, args := [] }) := by
  have e0 : invokeFunction 0 (freshWorker (oneFunctionStore [] [] [] unreachableBody) [])
      = some (.Success,
          { state := .Inited, stack := [.label ⟨0, none⟩, .frame ⟨0, 0, []⟩],
            instrPdr := [⟨.Block, unreachableBody, 0⟩, ⟨.FunctionCall, [], 0⟩],
            store := oneFunctionStore [] [] [] unreachableBody,
            currentFrame := none, args := [] }) := rfl
  have s1 : runLoopStep h
          { state := .Active, stack := [.label ⟨0, none⟩, .frame ⟨0, 0, []⟩],
            instrPdr := [⟨.Block, unreachableBody, 0⟩, ⟨.FunctionCall, [], 0⟩],
            store := oneFunctionStore [] [] [] unreachableBody,
            currentFrame := none, args := [] }
      = some (.Success,
          { state := .Active,
            stack := [.value (.i32 1), .label ⟨0, none⟩, .frame ⟨0, 0, []⟩],
            instrPdr := [⟨.Block, unreachableBody, 1⟩, ⟨.FunctionCall, [], 0⟩],
            store := oneFunctionStore [] [] [] unreachableBody,
            currentFrame := none, args := [] }) := rfl
  have s2 : runLoopStep h
          { state := .Active,
            stack := [.value (.i32 1), .label ⟨0, none⟩, .frame ⟨0, 0, []⟩],
            instrPdr := [⟨.Block, unreachableBody, 1⟩, ⟨.FunctionCall, [], 0⟩],
            store := oneFunctionStore [] [] [] unreachableBody,
            currentFrame := none, args := [] }
      = some (.Success,
          { state := .Unreachable,
            stack := [.value (.i32 1), .label ⟨0, none⟩, .frame ⟨0, 0, []⟩],
            instrPdr := [⟨.Block, unreachableBody, 2⟩, ⟨.FunctionCall, [], 0⟩],
            store := oneFunctionStore [] [] [] unreachableBody,
            currentFrame := none, args := [] }) := rfl
  have s3 : runLoopStep h
          { state := .Unreachable,
            stack := [.value (.i32 1), .label ⟨0, none⟩, .frame ⟨0, 0, []⟩],
            instrPdr := [⟨.Block, unreachableBody, 2⟩, ⟨.FunctionCall, [], 0⟩],
            store := oneFunctionStore [] [] [] unreachableBody,
            currentFrame := none, args := [] }
      = some (.Success,
          { state := .Unreachable, stack := [.value (.i32 1), .frame ⟨0, 0, []⟩],
            instrPdr := [⟨.FunctionCall, [], 0⟩],
            store := oneFunctionStore [] [] [] unreachableBody,
            currentFrame := none, args := [] }) := rfl
  have s4 : runLoopStep h
          { state := .Unreachable, stack := [.value (.i32 1), .frame ⟨0, 0, []⟩],
            instrPdr := [⟨.FunctionCall, [], 0⟩],
            store := oneFunctionStore [] [] [] unreachableBody,
            currentFrame := none, args := [] }
      = some (.Success,
          { state := .Unreachable, stack := [], instrPdr := [],
            store := oneFunctionStore [] [] [] unreachableBody,
            currentFrame := some 0, args := [] }) := rfl
  have hw : runLoopWhile h (fuel + 4) .Success
          { state := .Active, stack := [.label ⟨0, none⟩, .frame ⟨0, 0, []⟩],
            instrPdr := [⟨.Block, unreachableBody, 0⟩, ⟨.FunctionCall, [], 0⟩],
            store := oneFunctionStore [] [] [] unreachableBody,
            currentFrame := none, args := [] }
      = some (.Success,
          { state := .Unreachable, stack := [], instrPdr := [],
            store := oneFunctionStore [] [] [] unreachableBody,
            currentFrame := some 0, args := [] }) := by
    rw [runLoopWhile_step h (fuel + 3) _ _ _ (by decide) s1,
      runLoopWhile_step h (fuel + 2) _ _ _ (by decide) s2,
      runLoopWhile_step h (fuel + 1) _ _ _ (by decide) s3,
      runLoopWhile_step h fuel _ _ _ (by decide) s4,
      runLoopWhile_done h fuel _ _ (Or.inl rfl)]
  refine ⟨s2, ?_⟩
  rw [runStartFunction_of_invoke h (fuel + 4) 0 _ _ rfl e0]
  exact runLoop_of_while h (fuel + 4)
    { state := .CodeSet, stack := [.label ⟨0, none⟩, .frame ⟨0, 0, []⟩],
      instrPdr := [⟨.Block, unreachableBody, 0⟩, ⟨.FunctionCall, [], 0⟩],
      store := oneFunctionStore [] [] [] unreachableBody,
      currentFrame := none, args := [] }
    _ .Success rfl hw

/-- C2 (the code departs from the claim).  For `unreachable` the switch of
`runControlOp` stores Unreachable, and for an unsupported control opcode
(`nop`) it stores Unimplemented; in both cases `runControlOp` itself returns
Success. -/
theorem runControlOp_returns_success (h : Helpers) (w : Worker) (idx : Nat)
    (body : List Instruction) :
    (runControlOpStatus h (.control .Unreachable idx body) .Unreachable w
        = some (.Unreachable, { w with state := .Unreachable })
      ∧ runControlOp h (.control .Unreachable idx body) w
        = some (.Success, { w with state := .Unreachable }))
    ∧ (runControlOpStatus h (.control .Nop idx body) .Nop w = some (.Unimplemented, w)
      ∧ runControlOp h (.control .Nop idx body) w = some (.Success, w)) :=
  ⟨⟨rfl, rfl⟩, ⟨rfl, rfl⟩⟩

/-! ## Claims about the numeric dispatcher -/

/-- C3 (the code departs from the claim).  With `i32 2` and `i32 3` on the
stack, `i32.add` pops both and returns the type-mismatch status although the
tags are equal; with `i32 2` and `i64 3`, whose tags differ, no type mismatch
is reported and the addition helper is called. -/
theorem runNumericOp_type_check_inverted (h : Helpers) (w : Worker) (S : Stack) :
    runNumericOp h (.numeric .I32__add)
        { w with stack := .value (.i32 3) :: .value (.i32 2) :: S }
      = some (.TypeNotMatch, { w with stack := S })
    ∧ runNumericOp h (.numeric .I32__add)
        { w with stack := .value (.i64 3) :: .value (.i32 2) :: S }
      = h.runAddOp .int32_t (.i32 2) (.i64 3) { w with stack := S } :=
  ⟨rfl, rfl⟩

/-! ## Claims about a whole call -/

/-- The run of a call whose body reaches its end with the label and the frame
of the call in place.  A guest function `params -> returns` is started in
state Inited with an empty instruction provider on the stack `S ++ args`, the
arguments being values.  If the body runs to its end in `k` iterations of the
loop on the stack `S ++ [frame, label] ++ vals` with `vals` at least
`|returns|` values, and not in state Unreachable, then with fuel for `k + 2`
iterations `runStartFunction` returns Success, the final stack is `S` followed
by the top `|returns|` values of `vals`, the instruction provider is empty and
the state is Inited.  (Stacks are written top first in the statement.) -/
theorem runStartFunction_after_body (h : Helpers) (fuel k funcAddr : Nat) (w wEnd : Worker)
    (f : FunctionInstance) (m : ModuleInstance) (ft : FType) (args vals locals : List Value)
    (S : Stack) (cur : Nat)
    (hst : w.state = .Inited) (hpdr : w.instrPdr = [])
    (hf : w.store.getFunction funcAddr = .ok f)
    (hm : w.store.getModule f.moduleAddr = .ok m)
    (ht : m.getFuncType f.typeIdx = .ok ft)
    (hlen : args.length = ft.params.length)
    (hstack : w.stack = args.reverse.map StackEntry.value ++ S)
    (hbody : runLoopIter h k
        { w with state := .Active,
                 stack := .label ⟨ft.returns.length, none⟩
                   :: .frame ⟨f.moduleAddr, ft.returns.length, args ++ zeroLocals f.locals⟩ :: S,
                 instrPdr := [⟨.Block, f.instrs, 0⟩, ⟨.FunctionCall, [], 0⟩] } = some wEnd)
    (hendState : wEnd.state ≠ .Unreachable)
    (hendPdr : wEnd.instrPdr = [⟨.Block, f.instrs, cur⟩, ⟨.FunctionCall, [], 0⟩])
    (hcur : f.instrs.length ≤ cur)
    (hendStack : wEnd.stack = vals.map StackEntry.value
        ++ .label ⟨ft.returns.length, none⟩
        :: .frame ⟨f.moduleAddr, ft.returns.length, locals⟩ :: S)
    (hvals : ft.returns.length ≤ vals.length)
    (hfuel : k + 2 ≤ fuel) :
    runStartFunction h fuel funcAddr w = some (.Success,
      { wEnd with state := .Inited,
                  stack := (vals.take ft.returns.length).map StackEntry.value ++ S,
                  instrPdr := [],
                  currentFrame := some S.length }) := by
  obtain ⟨f2, rfl⟩ : ∃ f2, fuel = k + (f2 + 2) := ⟨fuel - k - 2, by omega⟩
  have hinv := invokeFunction_values w funcAddr f m ft args S hf hm ht hlen hstack
  have htd := runLoopWhile_teardown h f2 wEnd vals ⟨ft.returns.length, none⟩
    ⟨f.moduleAddr, ft.returns.length, locals⟩ S f.instrs [] cur 0 hendPdr hcur (by simp)
    hendStack hvals
  have hw := runLoopWhile_iter h k _ wEnd (f2 + 2) hbody
  rw [htd] at hw
  rw [runStartFunction_of_invoke h _ funcAddr w _ hst hinv]
  rw [runLoop_of_while h _ _ _ .Success rfl (by rw [← hw, hpdr])]
  simp [hendState]

/-- The start of a function `() -> i32` with body `[i32.const 2; i32.const 3]`
on the stack `[i64 9]`: the result is Success on `[i64 9, i32 3]`. -/
theorem twoConstBody_start :
    runStartFunction Helpers.unimplemented 4 0
        (freshWorker (oneFunctionStore [] [.I32] [] twoConstBody) [.value (.i64 9)])
      = some (.Success,
        { state := .Inited, stack := [.value (.i32 3), .value (.i64 9)], instrPdr := [],
          store := oneFunctionStore [] [.I32] [] twoConstBody,
          currentFrame := some 1, args := [] }) :=
  runStartFunction_after_body Helpers.unimplemented 4 2 0
    (freshWorker (oneFunctionStore [] [.I32] [] twoConstBody) [.value (.i64 9)])
    { state := .Active,
      stack := [.value (.i32 3), .value (.i32 2), .label ⟨1, none⟩, .frame ⟨0, 1, []⟩,
                .value (.i64 9)],
      instrPdr := [⟨.Block, twoConstBody, 2⟩, ⟨.FunctionCall, [], 0⟩],
      store := oneFunctionStore [] [.I32] [] twoConstBody, currentFrame := none, args := [] }
    { moduleAddr := 0, typeIdx := 0, locals := [], instrs := twoConstBody }
    { funcTypes := [{ params := [], returns := [.I32] }],
      funcAddrs := [0], memAddrs := [], globalAddrs := [] }
    { params := [], returns := [.I32] }
    [] [.i32 3, .i32 2] [] [.value (.i64 9)] 2
    rfl rfl rfl rfl rfl rfl rfl rfl (by decide) rfl (by decide) rfl (by decide) (by decide)

/-! ## Claims about the entry points -/

/-- C5.  In every state other than Inited, `runExpression` and
`runStartFunction` return WrongWorkerFlow and leave the whole worker (state,
stack, instruction provider) as it was. -/
theorem entry_points_wrong_flow (h : Helpers) (fuel : Nat) (instrs : InstrVec)
    (funcAddr : Nat) (w : Worker) (hst : w.state ≠ .Inited) :
    runExpression h fuel instrs w = some (.WrongWorkerFlow, w)
    ∧ runStartFunction h fuel funcAddr w = some (.WrongWorkerFlow, w) := by
  constructor
  · unfold runExpression
    simp [hst]
  · unfold runStartFunction
    simp [hst]

/-- C5, at a worker in state Active and with one in state Unreachable. -/
theorem entry_points_wrong_flow_witness :
    (runExpression Helpers.unimplemented 5 unreachableBody
        { freshWorker danglingTypeStore [.value (.i32 4)] with state := .Active }
      = some (.WrongWorkerFlow,
          { freshWorker danglingTypeStore [.value (.i32 4)] with state := .Active })
    ∧ runStartFunction Helpers.unimplemented 5 0
        { freshWorker danglingTypeStore [.value (.i32 4)] with state := .Active }
      = some (.WrongWorkerFlow,
          { freshWorker danglingTypeStore [.value (.i32 4)] with state := .Active }))
    ∧ (runExpression Helpers.unimplemented 5 unreachableBody
        { freshWorker danglingTypeStore [] with state := .Unreachable }
      = some (.WrongWorkerFlow, { freshWorker danglingTypeStore [] with state := .Unreachable })
    ∧ runStartFunction Helpers.unimplemented 5 0
        { freshWorker danglingTypeStore [] with state := .Unreachable }
      = some (.WrongWorkerFlow,
          { freshWorker danglingTypeStore [] with state := .Unreachable })) :=
  ⟨entry_points_wrong_flow Helpers.unimplemented 5 unreachableBody 0
      { freshWorker danglingTypeStore [.value (.i32 4)] with state := .Active } (by decide),
   entry_points_wrong_flow Helpers.unimplemented 5 unreachableBody 0
      { freshWorker danglingTypeStore [] with state := .Unreachable } (by decide)⟩

/-! ## Claims about constant expressions -/

/-- C6.  For constant instructions `op1 c1, ..., opn cn` (each opcode of the
const-numeric family) and a worker in state Inited with an empty instruction
provider, `runExpression` with fuel for `n + 1` iterations returns Success;
the stack is the initial stack with `c1, ..., cn` pushed in this order (so
`cn` is on top), tags as given; the instruction provider is empty and the
state is Inited. -/
theorem runExpression_consts (h : Helpers) (fuel : Nat) (cs : List (OpCode × Value)) (w : Worker)
    (hst : w.state = .Inited) (hpdr : w.instrPdr = [])
    (hops : ∀ c ∈ cs, isConstNumericOp c.1 = true) (hfuel : cs.length + 1 ≤ fuel) :
    runExpression h fuel (constInstrs cs) w = some (.Success,
      { w with state := .Inited,
               stack := (cs.map (fun c => StackEntry.value c.2)).reverse ++ w.stack,
               instrPdr := [] }) := by
  have hw := runLoopWhile_consts h cs
      { w with instrPdr := [⟨.Expression, constInstrs cs, 0⟩], state := .Active } [] fuel hops hfuel
      (by simp)
  unfold runExpression
  simp only [hst, ne_eq, not_true_eq_false, if_false, InstrProvider.pushInstrs, hpdr]
  rw [runLoop_of_while h fuel { w with instrPdr := [⟨.Expression, constInstrs cs, 0⟩], state := .CodeSet } _ .Success rfl hw]
  simp

/-- C6, at `[i32.const 2; i64.const 3]` over the stack `[i32 1]`. -/
theorem runExpression_consts_witness :
    runExpression Helpers.unimplemented 3
        (constInstrs [(.I32__const, .i32 2), (.I64__const, .i64 3)])
        (freshWorker danglingTypeStore [.value (.i32 1)])
      = some (.Success,
        { state := .Inited,
          stack := [.value (.i64 3), .value (.i32 2), .value (.i32 1)],
          instrPdr := [], store := danglingTypeStore, currentFrame := none, args := [] }) :=
  runExpression_consts Helpers.unimplemented 3 [(.I32__const, .i32 2), (.I64__const, .i64 3)]
    (freshWorker danglingTypeStore [.value (.i32 1)]) rfl rfl (by decide) (by decide)

/-! ## Claims about `invokeFunction` -/

/-- C7 (the code departs from the claim).  When the function lookup succeeds
and the module lookup fails, or the module lookup succeeds and the signature
lookup fails, `invokeFunction` returns Success (and changes nothing); only a
failed function lookup returns the lookup's error. -/
theorem invokeFunction_lookup_failure_success (stack : Stack) :
    invokeFunction 0 (freshWorker danglingModuleStore stack)
      = some (.Success, freshWorker danglingModuleStore stack)
    ∧ invokeFunction 0 (freshWorker danglingTypeStore stack)
      = some (.Success, freshWorker danglingTypeStore stack)
    ∧ invokeFunction 1 (freshWorker danglingTypeStore stack)
      = some (.AddressOutOfRange, freshWorker danglingTypeStore stack) :=
  ⟨rfl, rfl, rfl⟩

/-- C8 (counterexample).  The function has one parameter of type i32 and the
stack holds an `i64 5`.  `invokeFunction` returns Success, not the
type-mismatch status, and pushes a frame whose local 0 is the `i64 5`. -/
theorem invokeFunction_accepts_wrong_tag :
    invokeFunction 0 (freshWorker (oneFunctionStore [.I32] [] [] []) [.value (.i64 5)])
      = some (.Success,
        { state := .Inited,
          stack := [.label ⟨0, none⟩, .frame ⟨0, 0, [.i64 5]⟩],
          instrPdr := [⟨.Block, [], 0⟩, ⟨.FunctionCall, [], 0⟩],
          store := oneFunctionStore [.I32] [] [] [], currentFrame := none, args := [] })
    ∧ (invokeFunction 0 (freshWorker (oneFunctionStore [.I32] [] [] []) [.value (.i64 5)])).map
        Prod.fst ≠ some ErrCode.TypeNotMatch :=
  ⟨rfl, by decide⟩

/-- C8 (amended).  `invokeFunction` compares no tags.  For every guest
function whose lookups succeed and every stack whose top `|params|` records
are values, whatever their tags, it returns Success and leaves the stack
`S ++ [frame, label]`, the locals of the frame being those values in
declaration order followed by the zeroed declared locals. -/
theorem invokeFunction_no_tag_check (w : Worker) (funcAddr : Nat) (f : FunctionInstance)
    (m : ModuleInstance) (ft : FType) (args : List Value) (S : Stack)
    (hf : w.store.getFunction funcAddr = .ok f)
    (hm : w.store.getModule f.moduleAddr = .ok m)
    (ht : m.getFuncType f.typeIdx = .ok ft)
    (hlen : args.length = ft.params.length)
    (hstack : w.stack = args.reverse.map StackEntry.value ++ S) :
    ∃ w1, invokeFunction funcAddr w = some (.Success, w1)
      ∧ w1.stack = .label ⟨ft.returns.length, none⟩
          :: .frame ⟨f.moduleAddr, ft.returns.length, args ++ zeroLocals f.locals⟩ :: S :=
  ⟨_, invokeFunction_values w funcAddr f m ft args S hf hm ht hlen hstack, rfl⟩

/-- C8 (amended), at a function `(i32, i32) -> ()` with one declared i64 local,
called on the stack `[f32 1, i64 5, i32 6]` (bottom first). -/
theorem invokeFunction_no_tag_check_witness :
    ∃ w1, invokeFunction 0
        (freshWorker (oneFunctionStore [.I32, .I32] [] [(1, .I64)] [])
          [.value (.i32 6), .value (.i64 5), .value (.f32 1)])
        = some (.Success, w1)
      ∧ w1.stack = [.label ⟨0, none⟩, .frame ⟨0, 0, [.i64 5, .i32 6, .i64 0]⟩, .value (.f32 1)] :=
  invokeFunction_no_tag_check
    (freshWorker (oneFunctionStore [.I32, .I32] [] [(1, .I64)] [])
      [.value (.i32 6), .value (.i64 5), .value (.f32 1)])
    0 { moduleAddr := 0, typeIdx := 0, locals := [(1, .I64)], instrs := [] }
    { funcTypes := [{ params := [.I32, .I32], returns := [] }],
      funcAddrs := [0], memAddrs := [], globalAddrs := [] }
    { params := [.I32, .I32], returns := [] }
    [.i64 5, .i32 6] [.value (.f32 1)] rfl rfl rfl rfl rfl

/-! ## Claims about the variable instructions -/

/-- C9 (the code departs from the claim).  Two runs over `teeStore` from a
fresh worker.  The first, of function 0, caches its frame (position 0) at
`local.get 0` and stops with Unimplemented at `i32.clz`, leaving its frame on
the stack and the worker in state Inited.  The second, of function 1, enters a
new frame (position 3) and runs `i32.const 7; local.tee 0; local.get 0`:
`local.tee 0` leaves `i32 7` on top but writes it to local 0 of the cached
frame at position 0, local 0 of the topmost frame stays `i32 0`, and
`local.get 0` then pushes `i32 0`. -/
theorem local_tee_uses_cached_frame (h : Helpers) (fuel : Nat) :
    runStartFunction h (fuel + 2) 0 (freshWorker teeStore [])
      = some (.Unimplemented,
          teeWorker .Inited [.value (.i32 0), .label ⟨0, none⟩, .frame ⟨0, 0, [.i32 0]⟩]
            [⟨.Block, teeCallerBody, 2⟩, ⟨.FunctionCall, [], 0⟩] (some 0))
    ∧ invokeFunction 1
        (teeWorker .Inited [.value (.i32 0), .label ⟨0, none⟩, .frame ⟨0, 0, [.i32 0]⟩]
          [⟨.Block, teeCallerBody, 2⟩, ⟨.FunctionCall, [], 0⟩] (some 0))
      = some (.Success,
          teeWorker .Inited
            [.label ⟨0, none⟩, .frame ⟨0, 0, [.i32 0]⟩,
             .value (.i32 0), .label ⟨0, none⟩, .frame ⟨0, 0, [.i32 0]⟩]
            [⟨.Block, teeCalleeBody, 0⟩, ⟨.FunctionCall, [], 0⟩,
             ⟨.Block, teeCallerBody, 2⟩, ⟨.FunctionCall, [], 0⟩] (some 0))
    ∧ runLoopStep h
        (teeWorker .Active
          [.label ⟨0, none⟩, .frame ⟨0, 0, [.i32 0]⟩,
           .value (.i32 0), .label ⟨0, none⟩, .frame ⟨0, 0, [.i32 0]⟩]
          [⟨.Block, teeCalleeBody, 0⟩, ⟨.FunctionCall, [], 0⟩,
           ⟨.Block, teeCallerBody, 2⟩, ⟨.FunctionCall, [], 0⟩] (some 0))
      = some (.Success,
          teeWorker .Active
            [.value (.i32 7), .label ⟨0, none⟩, .frame ⟨0, 0, [.i32 0]⟩,
             .value (.i32 0), .label ⟨0, none⟩, .frame ⟨0, 0, [.i32 0]⟩]
            [⟨.Block, teeCalleeBody, 1⟩, ⟨.FunctionCall, [], 0⟩,
             ⟨.Block, teeCallerBody, 2⟩, ⟨.FunctionCall, [], 0⟩] (some 0))
    ∧ runLoopStep h
        (teeWorker .Active
          [.value (.i32 7), .label ⟨0, none⟩, .frame ⟨0, 0, [.i32 0]⟩,
           .value (.i32 0), .label ⟨0, none⟩, .frame ⟨0, 0, [.i32 0]⟩]
          [⟨.Block, teeCalleeBody, 1⟩, ⟨.FunctionCall, [], 0⟩,
           ⟨.Block, teeCallerBody, 2⟩, ⟨.FunctionCall, [], 0⟩] (some 0))
      = some (.Success,
          teeWorker .Active
            [.value (.i32 7), .label ⟨0, none⟩, .frame ⟨0, 0, [.i32 0]⟩,
             .value (.i32 0), .label ⟨0, none⟩, .frame ⟨0, 0, [.i32 7]⟩]
            [⟨.Block, teeCalleeBody, 2⟩, ⟨.FunctionCall, [], 0⟩,
             ⟨.Block, teeCallerBody, 2⟩, ⟨.FunctionCall, [], 0⟩] (some 0))
    ∧ runLoopStep h
        (teeWorker .Active
          [.value (.i32 7), .label ⟨0, none⟩, .frame ⟨0, 0, [.i32 0]⟩,
           .value (.i32 0), .label ⟨0, none⟩, .frame ⟨0, 0, [.i32 7]⟩]
          [⟨.Block, teeCalleeBody, 2⟩, ⟨.FunctionCall, [], 0⟩,
           ⟨.Block, teeCallerBody, 2⟩, ⟨.FunctionCall, [], 0⟩] (some 0))
      = some (.Success,
          teeWorker .Active
            [.value (.i32 0), .value (.i32 7), .label ⟨0, none⟩, .frame ⟨0, 0, [.i32 0]⟩,
             .value (.i32 0), .label ⟨0, none⟩, .frame ⟨0, 0, [.i32 7]⟩]
            [⟨.Block, teeCalleeBody, 3⟩, ⟨.FunctionCall, [], 0⟩,
             ⟨.Block, teeCallerBody, 2⟩, ⟨.FunctionCall, [], 0⟩] (some 3)) := by
  have e0 : invokeFunction 0 (freshWorker teeStore [])
      = some (.Success, teeWorker .Inited [.label ⟨0, none⟩, .frame ⟨0, 0, [.i32 0]⟩]
          [⟨.Block, teeCallerBody, 0⟩, ⟨.FunctionCall, [], 0⟩] none) := rfl
  have s1 : runLoopStep h (teeWorker .Active [.label ⟨0, none⟩, .frame ⟨0, 0, [.i32 0]⟩]
          [⟨.Block, teeCallerBody, 0⟩, ⟨.FunctionCall, [], 0⟩] none)
      = some (.Success, teeWorker .Active
          [.value (.i32 0), .label ⟨0, none⟩, .frame ⟨0, 0, [.i32 0]⟩]
          [⟨.Block, teeCallerBody, 1⟩, ⟨.FunctionCall, [], 0⟩] (some 0)) := rfl
  have s2 : runLoopStep h (teeWorker .Active
          [.value (.i32 0), .label ⟨0, none⟩, .frame ⟨0, 0, [.i32 0]⟩]
          [⟨.Block, teeCallerBody, 1⟩, ⟨.FunctionCall, [], 0⟩] (some 0))
      = some (.Unimplemented, teeWorker .Active
          [.value (.i32 0), .label ⟨0, none⟩, .frame ⟨0, 0, [.i32 0]⟩]
          [⟨.Block, teeCallerBody, 2⟩, ⟨.FunctionCall, [], 0⟩] (some 0)) := rfl
  have hw : runLoopWhile h (fuel + 2) .Success
        (teeWorker .Active [.label ⟨0, none⟩, .frame ⟨0, 0, [.i32 0]⟩]
          [⟨.Block, teeCallerBody, 0⟩, ⟨.FunctionCall, [], 0⟩] none)
      = some (.Unimplemented, teeWorker .Active
          [.value (.i32 0), .label ⟨0, none⟩, .frame ⟨0, 0, [.i32 0]⟩]
          [⟨.Block, teeCallerBody, 2⟩, ⟨.FunctionCall, [], 0⟩] (some 0)) := by
    rw [runLoopWhile_step h (fuel + 1) _ _ _ (by decide) s1,
      runLoopWhile_step h fuel _ _ _ (by decide) s2,
      runLoopWhile_done h fuel _ _ (Or.inr (by decide))]
  refine ⟨?_, rfl, rfl, rfl, rfl⟩
  rw [runStartFunction_of_invoke h (fuel + 2) 0 _ _ rfl e0]
  exact runLoop_of_while h (fuel + 2)
    (teeWorker .CodeSet [.label ⟨0, none⟩, .frame ⟨0, 0, [.i32 0]⟩]
      [⟨.Block, teeCallerBody, 0⟩, ⟨.FunctionCall, [], 0⟩] none)
    _ .Unimplemented rfl hw

/-- C10 (counterexample).  Global 0 of the frame's module is the immutable
global `i32 1`.  `global.set 0` with `i32 9` on top returns Success, not the
immutable-global status; the global keeps its value. -/
theorem global_set_immutable_returns_success :
    runVariableOp (.variable .Global__set 0) immutableGlobalWorker
      = some (.Success,
        { immutableGlobalWorker with
          stack := [.label ⟨0, none⟩, .frame ⟨0, 0, []⟩], currentFrame := some 0 })
    ∧ (runVariableOp (.variable .Global__set 0) immutableGlobalWorker).map Prod.fst
        ≠ some ErrCode.ImmutableGlobal :=
  ⟨rfl, by decide⟩

/-- C10 (amended).  For every `global.set i` whose index resolves, through the
module of the current frame, to a global instance that is not mutable, and
every stack with a value on top, `runVariableOp` pops the value and returns
Success; the globals of the store, that global among them, are unchanged. -/
theorem global_set_on_immutable_global (w : Worker) (index addr : Nat) (g : GlobalInstance) (v : Value)
    (S : Stack)
    (hres : resolveGlobal (refreshCurrentFrame w) index = some (addr, g))
    (himm : g.isMutable = false)
    (hstack : w.stack = .value v :: S) :
    runVariableOp (.variable .Global__set index) w
      = some (.Success, { refreshCurrentFrame w with stack := S })
    ∧ ({ refreshCurrentFrame w with stack := S } : Worker).store.globals = w.store.globals := by
  have hg := resolveGlobal_lookup _ _ _ _ hres
  have hs : (refreshCurrentFrame w).stack = .value v :: S := by
    rw [refreshCurrentFrame_stack, hstack]
  constructor
  · unfold runVariableOp
    simp [hres, hs, StackMgr.popValue, setGlobalValue_immutable _ addr g v hg himm]
  · simp [refreshCurrentFrame_store]

/-- C10 (amended), at `immutableGlobalWorker`. -/
theorem global_set_on_immutable_global_witness :
    runVariableOp (.variable .Global__set 0) immutableGlobalWorker
      = some (.Success,
        { refreshCurrentFrame immutableGlobalWorker with
          stack := [.label ⟨0, none⟩, .frame ⟨0, 0, []⟩] })
    ∧ ({ refreshCurrentFrame immutableGlobalWorker with
          stack := [.label ⟨0, none⟩, .frame ⟨0, 0, []⟩] } : Worker).store.globals
        = immutableGlobalWorker.store.globals :=
  global_set_on_immutable_global immutableGlobalWorker 0 0 { value := .i32 1, isMutable := false }
    (.i32 9) [.label ⟨0, none⟩, .frame ⟨0, 0, []⟩] rfl rfl rfl

/-- In state Inited, `runExpression` is the driver loop over the new Expression scope. -/
theorem runExpression_of_inited (h : Helpers) (fuel : Nat) (instrs : InstrVec) (w : Worker)
    (hst : w.state = .Inited) :
    runExpression h fuel instrs w
      = runLoop h fuel
          { w with instrPdr := ⟨.Expression, instrs, 0⟩ :: w.instrPdr, state := .CodeSet } := by
  unfold runExpression
  simp [hst, InstrProvider.pushInstrs]

/-! ## Claims about division, `select` and unknown opcodes -/

/-- C11 (counterexample).  With a dividend and a divisor 0 of the matching
type on the stack, each of `i32.div_s`, `i32.div_u`, `i64.div_s` and
`i64.div_u` makes `runNumericOp` return the type-mismatch status, not
DivByZero. -/
theorem division_by_zero_not_reported :
    runNumericOp Helpers.unimplemented (.numeric .I32__div_s)
        (freshWorker danglingTypeStore [.value (.i32 0), .value (.i32 7)])
      = some (.TypeNotMatch, freshWorker danglingTypeStore [])
    ∧ runNumericOp Helpers.unimplemented (.numeric .I32__div_u)
        (freshWorker danglingTypeStore [.value (.i32 0), .value (.i32 7)])
      = some (.TypeNotMatch, freshWorker danglingTypeStore [])
    ∧ runNumericOp Helpers.unimplemented (.numeric .I64__div_s)
        (freshWorker danglingTypeStore [.value (.i64 0), .value (.i64 7)])
      = some (.TypeNotMatch, freshWorker danglingTypeStore [])
    ∧ runNumericOp Helpers.unimplemented (.numeric .I64__div_u)
        (freshWorker danglingTypeStore [.value (.i64 0), .value (.i64 7)])
      = some (.TypeNotMatch, freshWorker danglingTypeStore []) :=
  ⟨rfl, rfl, rfl, rfl⟩

/-- C11 (amended).  The switch of `runNumericOp` has no case for `i32.div_s`,
`i32.div_u` and `i64.div_s`: for every two value operands the status is the
one of the operand guard (type mismatch) or Unimplemented, so never
DivByZero.  For `i64.div_u` the status is the one of the operand guard or
whatever `runDivUOp<int64_t>` returns for the two operands.  (`val2`, the
divisor, is on top.) -/
theorem division_dispatch (h : Helpers) (w : Worker) (val1 val2 : Value) (S : Stack) :
    (runNumericOp h (.numeric .I32__div_s) { w with stack := .value val2 :: .value val1 :: S }
        = some (.TypeNotMatch, { w with stack := S })
      ∨ runNumericOp h (.numeric .I32__div_s) { w with stack := .value val2 :: .value val1 :: S }
        = some (.Unimplemented, { w with stack := S }))
    ∧ (runNumericOp h (.numeric .I32__div_u) { w with stack := .value val2 :: .value val1 :: S }
        = some (.TypeNotMatch, { w with stack := S })
      ∨ runNumericOp h (.numeric .I32__div_u) { w with stack := .value val2 :: .value val1 :: S }
        = some (.Unimplemented, { w with stack := S }))
    ∧ (runNumericOp h (.numeric .I64__div_s) { w with stack := .value val2 :: .value val1 :: S }
        = some (.TypeNotMatch, { w with stack := S })
      ∨ runNumericOp h (.numeric .I64__div_s) { w with stack := .value val2 :: .value val1 :: S }
        = some (.Unimplemented, { w with stack := S }))
    ∧ (runNumericOp h (.numeric .I64__div_u) { w with stack := .value val2 :: .value val1 :: S }
        = some (.TypeNotMatch, { w with stack := S })
      ∨ runNumericOp h (.numeric .I64__div_u) { w with stack := .value val2 :: .value val1 :: S }
        = h.runDivUOp .int64_t val1 val2 { w with stack := S }) := by
  refine ⟨?_, ?_, ?_, ?_⟩ <;>
    cases hg : isValueTypeEqual val1 val2 <;>
    simp [runNumericOp, isBinaryOp, StackMgr.popValue, hg]

/-- C12.  On a stack `S ++ [v1, v2, i32 c]` with `v1` and `v2` of the same
tag, `select` returns Success and leaves `S ++ [v1]` when `c` is not zero and
`S ++ [v2]` when `c` is zero. -/
theorem select_chooses (w : Worker) (S : Stack) (v1 v2 : Value) (c : Nat)
    (_htag : v1.tag = v2.tag)
    (hstack : w.stack = .value (.i32 c) :: .value v2 :: .value v1 :: S) :
    runParametricOp (.parametric .Select) w
      = some (.Success, { w with stack := .value (if c = 0 then v2 else v1) :: S }) := by
  unfold runParametricOp
  by_cases hc : c = 0 <;>
    simp [hstack, StackMgr.popValue, Value.getI32, pushPtr, StackMgr.push, hc]

/-- C12, at `[i64 4, i64 5, i32 1]` and at `[i64 4, i64 5, i32 0]` over `[f32 9]`. -/
theorem select_chooses_witness :
    runParametricOp (.parametric .Select)
        (freshWorker danglingTypeStore
          [.value (.i32 1), .value (.i64 5), .value (.i64 4), .value (.f32 9)])
      = some (.Success, freshWorker danglingTypeStore [.value (.i64 4), .value (.f32 9)])
    ∧ runParametricOp (.parametric .Select)
        (freshWorker danglingTypeStore
          [.value (.i32 0), .value (.i64 5), .value (.i64 4), .value (.f32 9)])
      = some (.Success, freshWorker danglingTypeStore [.value (.i64 5), .value (.f32 9)]) :=
  ⟨select_chooses _ [.value (.f32 9)] (.i64 4) (.i64 5) 1 rfl rfl,
   select_chooses _ [.value (.f32 9)] (.i64 4) (.i64 5) 0 rfl rfl⟩

/-- C13 (the code departs from the claim).  The opcode `Reserved` is in none
of the six families.  The iteration of the driver loop that fetches an
instruction with this opcode leaves the status Success and only advances the
cursor, and `runExpression` on `[<reserved opcode>; i32.const 5]` goes on to
the constant and returns Success with `i32 5` pushed. -/
theorem unknown_opcode_is_skipped (h : Helpers) (fuel : Nat) (stack : Stack) :
    (isConstNumericOp .Reserved = false ∧ isControlOp .Reserved = false
      ∧ isNumericOp .Reserved = false ∧ isMemoryOp .Reserved = false
      ∧ isParametricOp .Reserved = false ∧ isVariableOp .Reserved = false)
    ∧ runLoopStep h
        { freshWorker danglingTypeStore stack with
          state := .Active, instrPdr := [⟨.Expression, reservedBody, 0⟩] }
      = some (.Success,
        { freshWorker danglingTypeStore stack with
          state := .Active, instrPdr := [⟨.Expression, reservedBody, 1⟩] })
    ∧ runExpression h (fuel + 3) reservedBody (freshWorker danglingTypeStore stack)
      = some (.Success, freshWorker danglingTypeStore (.value (.i32 5) :: stack)) := by
  have s1 : runLoopStep h
        { freshWorker danglingTypeStore stack with
          state := .Active, instrPdr := [⟨.Expression, reservedBody, 0⟩] }
      = some (.Success,
        { freshWorker danglingTypeStore stack with
          state := .Active, instrPdr := [⟨.Expression, reservedBody, 1⟩] }) := rfl
  have s2 : runLoopStep h
        { freshWorker danglingTypeStore stack with
          state := .Active, instrPdr := [⟨.Expression, reservedBody, 1⟩] }
      = some (.Success,
        { freshWorker danglingTypeStore (.value (.i32 5) :: stack) with
          state := .Active, instrPdr := [⟨.Expression, reservedBody, 2⟩] }) := rfl
  have s3 : runLoopStep h
        { freshWorker danglingTypeStore (.value (.i32 5) :: stack) with
          state := .Active, instrPdr := [⟨.Expression, reservedBody, 2⟩] }
      = some (.Success,
        { freshWorker danglingTypeStore (.value (.i32 5) :: stack) with
          state := .Active, instrPdr := [] }) := rfl
  have hw : runLoopWhile h (fuel + 3) .Success
        { freshWorker danglingTypeStore stack with
          state := .Active, instrPdr := [⟨.Expression, reservedBody, 0⟩] }
      = some (.Success,
        { freshWorker danglingTypeStore (.value (.i32 5) :: stack) with
          state := .Active, instrPdr := [] }) := by
    rw [runLoopWhile_step h (fuel + 2) _ _ _ (by simp) s1,
      runLoopWhile_step h (fuel + 1) _ _ _ (by simp) s2,
      runLoopWhile_step h fuel _ _ _ (by simp) s3,
      runLoopWhile_done h fuel _ _ (Or.inl rfl)]
  refine ⟨by decide, s1, ?_⟩
  rw [runExpression_of_inited h (fuel + 3) reservedBody _ rfl]
  exact runLoop_of_while h (fuel + 3)
    { freshWorker danglingTypeStore stack with
      state := .CodeSet, instrPdr := [⟨.Expression, reservedBody, 0⟩] }
    _ .Success rfl hw

/-! ## Claims about scope entry and exit -/

/-- C17.  For a guest function whose lookups succeed, with `n` parameters,
`m` returns and body `B`, and a stack `S ++ args` with `args` being `n`
values, `invokeFunction` returns Success; the stack is then `S ++ [frame,
label]`, the frame carrying the module address of the function, arity `m` and
the locals `args` (declaration order) followed by the zeroed declared locals,
the label carrying arity `m` and no continuation; exactly two scopes are
pushed, an empty FunctionCall sequence and above it the Block sequence `B`
with its cursor at the first instruction. -/
theorem invokeFunction_pushes_frame_and_scopes (w : Worker) (funcAddr : Nat)
    (f : FunctionInstance) (m : ModuleInstance) (ft : FType) (args : List Value) (S : Stack)
    (hf : w.store.getFunction funcAddr = .ok f)
    (hm : w.store.getModule f.moduleAddr = .ok m)
    (ht : m.getFuncType f.typeIdx = .ok ft)
    (hlen : args.length = ft.params.length)
    (hstack : w.stack = args.reverse.map StackEntry.value ++ S) :
    invokeFunction funcAddr w = some (.Success,
      { w with
        stack := .label ⟨ft.returns.length, none⟩
          :: .frame ⟨f.moduleAddr, ft.returns.length, args ++ zeroLocals f.locals⟩ :: S,
        instrPdr := ⟨.Block, f.instrs, 0⟩ :: ⟨.FunctionCall, [], 0⟩ :: w.instrPdr }) :=
  invokeFunction_values w funcAddr f m ft args S hf hm ht hlen hstack

/-- C17, at a function `(i32, i64) -> i32` with two declared f32 locals and body
`[i32.const 2; i32.const 3]`, called on the stack `[i32 1, i32 6, i64 5]`
(bottom first). -/
theorem invokeFunction_pushes_frame_and_scopes_witness :
    invokeFunction 0
        (freshWorker (oneFunctionStore [.I32, .I64] [.I32] [(2, .F32)] twoConstBody)
          [.value (.i64 5), .value (.i32 6), .value (.i32 1)])
      = some (.Success,
        { state := .Inited,
          stack := [.label ⟨1, none⟩,
                    .frame ⟨0, 1, [.i32 6, .i64 5, .f32 0, .f32 0]⟩, .value (.i32 1)],
          instrPdr := [⟨.Block, twoConstBody, 0⟩, ⟨.FunctionCall, [], 0⟩],
          store := oneFunctionStore [.I32, .I64] [.I32] [(2, .F32)] twoConstBody,
          currentFrame := none, args := [] }) :=
  invokeFunction_pushes_frame_and_scopes
    (freshWorker (oneFunctionStore [.I32, .I64] [.I32] [(2, .F32)] twoConstBody)
      [.value (.i64 5), .value (.i32 6), .value (.i32 1)])
    0 { moduleAddr := 0, typeIdx := 0, locals := [(2, .F32)], instrs := twoConstBody }
    { funcTypes := [{ params := [.I32, .I64], returns := [.I32] }],
      funcAddrs := [0], memAddrs := [], globalAddrs := [] }
    { params := [.I32, .I64], returns := [.I32] }
    [.i32 6, .i64 5] [.value (.i32 1)] rfl rfl rfl rfl rfl

/-- C18.  On a stack `S ++ [label] ++ vals`, `vals` being any list of values,
and an instruction provider with at least one scope, `leaveBlock` returns
(its loop ends at the label) with Success, leaves the stack `S ++ vals` with
the values in their order, and removes exactly the top scope.  (`vals` is
listed top first.) -/
theorem leaveBlock_removes_label_and_scope (w : Worker) (vals : List Value) (l : LabelEntry)
    (S : Stack) (sc : Scope) (p : InstrProvider)
    (hstack : w.stack = vals.map StackEntry.value ++ .label l :: S)
    (hpdr : w.instrPdr = sc :: p) :
    leaveBlock w = some (.Success,
      { w with stack := vals.map StackEntry.value ++ S, instrPdr := p }) := by
  rw [leaveBlock_values w vals l S hstack, hpdr]
  rfl

/-- C18, at the stack `[f32 9, label, i32 1, i64 2]` (bottom first) and two scopes. -/
theorem leaveBlock_removes_label_and_scope_witness :
    leaveBlock
        { freshWorker danglingTypeStore
            [.value (.i64 2), .value (.i32 1), .label ⟨2, none⟩, .value (.f32 9)] with
          instrPdr := [⟨.Block, twoConstBody, 2⟩, ⟨.FunctionCall, [], 0⟩] }
      = some (.Success,
        { freshWorker danglingTypeStore [.value (.i64 2), .value (.i32 1), .value (.f32 9)] with
          instrPdr := [⟨.FunctionCall, [], 0⟩] }) :=
  leaveBlock_removes_label_and_scope
    { freshWorker danglingTypeStore
        [.value (.i64 2), .value (.i32 1), .label ⟨2, none⟩, .value (.f32 9)] with
      instrPdr := [⟨.Block, twoConstBody, 2⟩, ⟨.FunctionCall, [], 0⟩] }
    [.i64 2, .i32 1] ⟨2, none⟩ [.value (.f32 9)] ⟨.Block, twoConstBody, 2⟩
    [⟨.FunctionCall, [], 0⟩] rfl rfl

/-- C19.  On a stack `S ++ [frame] ++ mid ++ rets`, the frame having arity
`n`, `rets` being `n` values and `mid` holding values and `k` labels but no
frame, and an instruction provider with at least `k + 1` scopes,
`returnFunction` returns (its loops end at the frame) with Success, leaves the
stack `S ++ rets` with the values in their order, and removes exactly `k + 1`
scopes from the top of the instruction provider.  (`rets` and `mid` are listed
top first.) -/
theorem returnFunction_removes_frame_and_scopes (w : Worker) (f : FrameEntry)
    (rets : List Value) (mid S : Stack) (k : Nat)
    (hmid : ∀ e ∈ mid, e.isFrame = false) (hk : countLabels mid = k)
    (hlen : rets.length = f.arity)
    (hstack : w.stack = rets.map StackEntry.value ++ (mid ++ .frame f :: S))
    (hpdr : k + 1 ≤ w.instrPdr.length) :
    returnFunction w = some (.Success,
      { w with stack := rets.map StackEntry.value ++ S,
               instrPdr := w.instrPdr.drop (k + 1),
               currentFrame := some S.length })
    ∧ (w.instrPdr.drop (k + 1)).length + (k + 1) = w.instrPdr.length := by
  constructor
  · rw [returnFunction_unwinds w f rets mid S hmid hlen hstack, hk]
  · rw [List.length_drop]
    omega

/-- C19, at the stack `[f32 9, frame, i32 1, label, i64 2, label, i32 3]`
(bottom first), the frame having arity 1, and four scopes. -/
theorem returnFunction_removes_frame_and_scopes_witness :
    returnFunction
        { freshWorker danglingTypeStore
            [.value (.i32 3), .label ⟨0, none⟩, .value (.i64 2), .label ⟨1, none⟩,
             .value (.i32 1), .frame ⟨0, 1, []⟩, .value (.f32 9)] with
          instrPdr := [⟨.Block, [], 0⟩, ⟨.Block, twoConstBody, 1⟩, ⟨.FunctionCall, [], 0⟩,
                       ⟨.Expression, [], 0⟩] }
      = some (.Success,
        { freshWorker danglingTypeStore [.value (.i32 3), .value (.f32 9)] with
          instrPdr := [⟨.Expression, [], 0⟩], currentFrame := some 1 })
    ∧ ([⟨.Expression, [], 0⟩] : InstrProvider).length + (2 + 1) = 4 :=
  returnFunction_removes_frame_and_scopes
    { freshWorker danglingTypeStore
        [.value (.i32 3), .label ⟨0, none⟩, .value (.i64 2), .label ⟨1, none⟩,
         .value (.i32 1), .frame ⟨0, 1, []⟩, .value (.f32 9)] with
      instrPdr := [⟨.Block, [], 0⟩, ⟨.Block, twoConstBody, 1⟩, ⟨.FunctionCall, [], 0⟩,
                   ⟨.Expression, [], 0⟩] }
    ⟨0, 1, []⟩ [.i32 3]
    [.label ⟨0, none⟩, .value (.i64 2), .label ⟨1, none⟩, .value (.i32 1)]
    [.value (.f32 9)] 2 (by decide) rfl rfl rfl (by decide)

/-! ## The lockstep of labels and scopes -/

/-- Values do not count as labels or frames. -/
theorem countLabelsFrames_values (vs : List Value) (s : Stack) :
    countLabelsFrames (vs.map StackEntry.value ++ s) = countLabelsFrames s := by
  induction vs with
  | nil => rfl
  | cons v vs ih =>
    simp [countLabelsFrames, StackEntry.isLabel, StackEntry.isFrame]

/-- A label counts once. -/
theorem countLabelsFrames_label (l : LabelEntry) (s : Stack) :
    countLabelsFrames (.label l :: s) = countLabelsFrames s + 1 := by
  simp [countLabelsFrames, StackEntry.isLabel]

/-- A frame counts once. -/
theorem countLabelsFrames_frame (f : FrameEntry) (s : Stack) :
    countLabelsFrames (.frame f :: s) = countLabelsFrames s + 1 := by
  simp [countLabelsFrames, StackEntry.isFrame]

/-- A frame-free segment counts its labels. -/
theorem countLabelsFrames_mid (mid : Stack) (s : Stack)
    (hmid : ∀ e ∈ mid, e.isFrame = false) :
    countLabelsFrames (mid ++ s) = countLabels mid + countLabelsFrames s := by
  induction mid with
  | nil => simp [countLabels]
  | cons e mid ih =>
    have he : e.isFrame = false := hmid e (by simp)
    have ih2 := ih (fun x hx => hmid x (by simp [hx]))
    cases e with
    | frame g => simp [StackEntry.isFrame] at he
    | value v =>
      rw [List.cons_append, countLabels_value]
      have := countLabelsFrames_values [v] (mid ++ s)
      simp only [List.map_cons, List.map_nil, List.cons_append, List.nil_append] at this
      rw [this, ih2]
    | label l =>
      rw [List.cons_append, countLabels_label, countLabelsFrames_label, ih2]
      omega

/-- A Block or FunctionCall scope counts once. -/
theorem countBlockCallScopes_cons (sc : Scope) (p : InstrProvider)
    (hsc : sc.isBlockOrCall = true) :
    countBlockCallScopes (sc :: p) = countBlockCallScopes p + 1 := by
  simp [countBlockCallScopes, hsc]

/-- Removing `n` Block or FunctionCall scopes from at least `n` such scopes. -/
theorem countBlockCallScopes_drop (n : Nat) :
    ∀ p : InstrProvider, (∀ sc ∈ p.take n, sc.isBlockOrCall = true) →
      n ≤ countBlockCallScopes p →
      countBlockCallScopes (p.drop n) + n = countBlockCallScopes p := by
  induction n with
  | zero => intro p _ _; simp
  | succ n ih =>
    intro p hp hn
    cases p with
    | nil => simp [countBlockCallScopes] at hn
    | cons sc p =>
      have hsc : sc.isBlockOrCall = true := hp sc (by simp)
      rw [countBlockCallScopes_cons sc p hsc] at hn ⊢
      have := ih p (fun x hx => hp x (by simp [hx])) (by omega)
      simp only [List.drop_succ_cons]
      omega

/-- Every pointer of a buffer that reads back is set. -/
theorem derefAll_isSome (l : List (Option Value)) (r : List Value)
    (hl : derefAll l = some r) : ∀ v ∈ l, v.isSome = true := by
  induction l generalizing r with
  | nil => simp
  | cons x xs ih =>
    cases x with
    | none => simp [derefAll] at hl
    | some a =>
      simp only [derefAll] at hl
      split at hl
      · rename_i rest hrest
        intro v hv
        rcases List.mem_cons.mp hv with h1 | h1
        · rw [h1]; rfl
        · exact ih rest hrest v h1
      · exact absurd hl (by simp)

/-- Typed pops that all succeed remove values only. -/
theorem popVals_countLabelsFrames (n : Nat) :
    ∀ s : Stack, (∀ v ∈ (popVals n s).1, v.isSome = true) →
      countLabelsFrames (popVals n s).2 = countLabelsFrames s := by
  induction n with
  | zero => intro s _; rfl
  | succ n ih =>
    intro s hs
    cases s with
    | nil =>
      have := hs none (by simp [popVals, StackMgr.popValue])
      simp at this
    | cons e s =>
      cases e with
      | value v =>
        have h1 := ih s (fun x hx => hs x (by simp [popVals, StackMgr.popValue, hx]))
        have h2 := countLabelsFrames_values [v] s
        simp only [List.map_cons, List.map_nil, List.cons_append, List.nil_append] at h2
        simp only [popVals, StackMgr.popValue]
        rw [h1, h2]
      | label l =>
        have := hs none (by simp [popVals, StackMgr.popValue])
        simp at this
      | frame f =>
        have := hs none (by simp [popVals, StackMgr.popValue])
        simp at this

/-- A successful `invokeFunction` keeps labels and scopes in lockstep. -/
theorem invokeFunction_lockstep (funcAddr : Nat) (w w1 : Worker)
    (hinv : invokeFunction funcAddr w = some (.Success, w1)) (hw : lockstep w) :
    lockstep w1 := by
  unfold invokeFunction at hinv
  split at hinv
  · simp at hinv
    rw [← hinv.2]; exact hw
  · split at hinv
    · simp at hinv
      rw [← hinv]; exact hw
    · split at hinv
      · simp at hinv
        rw [← hinv]; exact hw
      · rename_i funcInst _ moduleInst _ funcType _
        simp only [makeFrame] at hinv
        split at hinv
        · exact absurd hinv (by simp)
        · rename_i frame hframe
          split at hframe
          · exact absurd hframe (by simp)
          · rename_i args hargs
            have hsome := derefAll_isSome _ _ hargs
            have hpop := popVals_countLabelsFrames funcType.params.length w.stack
              (fun v hv => hsome v (List.mem_reverse.mpr hv))
            simp [enterBlock, StackMgr.push, InstrProvider.pushInstrs] at hinv
            rw [← hinv]
            unfold lockstep at hw ⊢
            simp only [countLabelsFrames_label, countLabelsFrames_frame, hpop]
            rw [countBlockCallScopes_cons _ _ (by rfl), countBlockCallScopes_cons _ _ (by rfl)]
            omega

/-- C20 (counterexample).  One label is on the stack; the instruction
provider holds an Expression scope above a Block scope, so the predicate
holds.  `leaveBlock` pops the label and the top scope, the Expression scope:
no label is left but a Block scope is, and the predicate fails. -/
theorem leaveBlock_breaks_lockstep :
    lockstep
        { freshWorker danglingTypeStore [.label ⟨0, none⟩] with
          instrPdr := [⟨.Expression, [], 0⟩, ⟨.Block, [], 0⟩] }
    ∧ leaveBlock
        { freshWorker danglingTypeStore [.label ⟨0, none⟩] with
          instrPdr := [⟨.Expression, [], 0⟩, ⟨.Block, [], 0⟩] }
      = some (.Success,
        { freshWorker danglingTypeStore [] with instrPdr := [⟨.Block, [], 0⟩] })
    ∧ ¬ lockstep { freshWorker danglingTypeStore [] with instrPdr := [⟨.Block, [], 0⟩] } :=
  ⟨by decide, rfl, by decide⟩

/-- C20 (amended).  The lockstep predicate is preserved by `enterBlock`; by
`leaveBlock` when the stack top region is values over a label and the top
scope is a Block or FunctionCall scope; by a successful `invokeFunction`; and
by `returnFunction` when `arity` values lie on top of the current frame's
region, above `k` labels and no other frame, and the `k + 1` top scopes are
Block or FunctionCall scopes. -/
theorem lockstep_preserved :
    (∀ (arity : Nat) (instr : Option Instruction) (seq : InstrVec) (w : Worker),
      lockstep w →
      ∃ w1, enterBlock arity instr seq w = some (.Success, w1) ∧ lockstep w1)
    ∧ (∀ (w : Worker) (vals : List Value) (l : LabelEntry) (S : Stack) (sc : Scope)
        (p : InstrProvider),
      w.stack = vals.map StackEntry.value ++ .label l :: S →
      w.instrPdr = sc :: p → sc.isBlockOrCall = true → lockstep w →
      ∃ w1, leaveBlock w = some (.Success, w1) ∧ lockstep w1)
    ∧ (∀ (funcAddr : Nat) (w w1 : Worker),
      invokeFunction funcAddr w = some (.Success, w1) → lockstep w → lockstep w1)
    ∧ (∀ (w : Worker) (f : FrameEntry) (rets : List Value) (mid S : Stack),
      (∀ e ∈ mid, e.isFrame = false) → rets.length = f.arity →
      w.stack = rets.map StackEntry.value ++ (mid ++ .frame f :: S) →
      (∀ sc ∈ w.instrPdr.take (countLabels mid + 1), sc.isBlockOrCall = true) →
      lockstep w →
      ∃ w1, returnFunction w = some (.Success, w1) ∧ lockstep w1) := by
  refine ⟨?_, ?_, ?_, ?_⟩
  · intro arity instr seq w hw
    refine ⟨_, rfl, ?_⟩
    unfold lockstep at hw ⊢
    simp only [StackMgr.push, InstrProvider.pushInstrs, countLabelsFrames_label]
    rw [countBlockCallScopes_cons _ _ (by rfl), hw]
  · intro w vals l S sc p hstack hpdr hsc hw
    refine ⟨_, leaveBlock_values w vals l S hstack, ?_⟩
    unfold lockstep at hw ⊢
    rw [hstack, countLabelsFrames_values, countLabelsFrames_label, hpdr,
      countBlockCallScopes_cons sc p hsc] at hw
    simp only [countLabelsFrames_values, hpdr, List.tail_cons]
    omega
  · exact invokeFunction_lockstep
  · intro w f rets mid S hmid hlen hstack hscopes hw
    refine ⟨_, returnFunction_unwinds w f rets mid S hmid hlen hstack, ?_⟩
    unfold lockstep at hw ⊢
    rw [hstack, countLabelsFrames_values, countLabelsFrames_mid mid _ hmid,
      countLabelsFrames_frame] at hw
    have hdrop := countBlockCallScopes_drop (countLabels mid + 1) w.instrPdr hscopes (by omega)
    simp only [countLabelsFrames_values]
    omega

/-- C20 (amended), at concrete workers: `enterBlock` on an empty worker, then
`leaveBlock`, `invokeFunction` and `returnFunction` on workers in lockstep. -/
theorem lockstep_preserved_witness :
    (∃ w1, enterBlock 1 none twoConstBody (freshWorker danglingTypeStore [.value (.i32 1)])
        = some (.Success, w1) ∧ lockstep w1)
    ∧ (∃ w1, leaveBlock
          { freshWorker danglingTypeStore
              [.value (.i64 2), .label ⟨1, none⟩, .frame ⟨0, 1, []⟩] with
            instrPdr := [⟨.Block, twoConstBody, 2⟩, ⟨.FunctionCall, [], 0⟩] }
        = some (.Success, w1) ∧ lockstep w1)
    ∧ lockstep
        { state := .Inited,
          stack := [.label ⟨1, none⟩, .frame ⟨0, 1, []⟩, .value (.i64 9)],
          instrPdr := [⟨.Block, twoConstBody, 0⟩, ⟨.FunctionCall, [], 0⟩],
          store := oneFunctionStore [] [.I32] [] twoConstBody,
          currentFrame := none, args := [] }
    ∧ (∃ w1, returnFunction
          { freshWorker danglingTypeStore
              [.value (.i64 2), .label ⟨1, none⟩, .value (.i32 7), .frame ⟨0, 1, []⟩] with
            instrPdr := [⟨.Block, twoConstBody, 2⟩, ⟨.FunctionCall, [], 0⟩] }
        = some (.Success, w1) ∧ lockstep w1) :=
  ⟨lockstep_preserved.1 1 none twoConstBody (freshWorker danglingTypeStore [.value (.i32 1)])
      (by decide),
   lockstep_preserved.2.1
      { freshWorker danglingTypeStore
          [.value (.i64 2), .label ⟨1, none⟩, .frame ⟨0, 1, []⟩] with
        instrPdr := [⟨.Block, twoConstBody, 2⟩, ⟨.FunctionCall, [], 0⟩] }
      [.i64 2] ⟨1, none⟩ [.frame ⟨0, 1, []⟩] ⟨.Block, twoConstBody, 2⟩ [⟨.FunctionCall, [], 0⟩]
      rfl rfl rfl (by decide),
   lockstep_preserved.2.2.1 0
      (freshWorker (oneFunctionStore [] [.I32] [] twoConstBody) [.value (.i64 9)]) _
      rfl (by decide),
   lockstep_preserved.2.2.2
      { freshWorker danglingTypeStore
          [.value (.i64 2), .label ⟨1, none⟩, .value (.i32 7), .frame ⟨0, 1, []⟩] with
        instrPdr := [⟨.Block, twoConstBody, 2⟩, ⟨.FunctionCall, [], 0⟩] }
      ⟨0, 1, []⟩ [.i64 2] [.label ⟨1, none⟩, .value (.i32 7)] []
      (by decide) rfl rfl (by decide) (by decide)⟩

/-! ## The state of the worker on return -/

/-- The status of `returnFunction` is never Unreachable. -/
theorem returnFunction_status (w w1 : Worker) (st : ErrCode)
    (hr : returnFunction w = some (st, w1)) : st ≠ .Unreachable := by
  unfold returnFunction at hr
  dsimp only at hr
  repeat' split at hr
  all_goals (try simp at hr)
  all_goals (obtain ⟨rfl, -⟩ := hr; decide)

/-- The status of `leaveBlock` is never Unreachable. -/
theorem leaveBlock_status (w w1 : Worker) (st : ErrCode)
    (hr : leaveBlock w = some (st, w1)) : st ≠ .Unreachable := by
  unfold leaveBlock at hr
  dsimp only at hr
  repeat' split at hr
  all_goals (try simp at hr)
  all_goals (obtain ⟨rfl, -⟩ := hr; decide)

/-- The status of `runConstNumericOp` is never Unreachable. -/
theorem runConstNumericOp_status (i : Instruction) (w w1 : Worker) (st : ErrCode)
    (hr : runConstNumericOp i w = some (st, w1)) : st ≠ .Unreachable := by
  unfold runConstNumericOp at hr
  repeat' split at hr
  all_goals (try simp at hr)
  all_goals (obtain ⟨rfl, -⟩ := hr; decide)

/-- The status of `runControlOp` is never Unreachable. -/
theorem runControlOp_status (h : Helpers) (i : Instruction) (w w1 : Worker) (st : ErrCode)
    (hr : runControlOp h i w = some (st, w1)) : st ≠ .Unreachable := by
  unfold runControlOp at hr
  repeat' split at hr
  all_goals (try simp at hr)
  all_goals (obtain ⟨rfl, -⟩ := hr; decide)

/-- The status of `runParametricOp` is never Unreachable. -/
theorem runParametricOp_status (i : Instruction) (w w1 : Worker) (st : ErrCode)
    (hr : runParametricOp i w = some (st, w1)) : st ≠ .Unreachable := by
  unfold runParametricOp at hr
  dsimp only at hr
  repeat' split at hr
  all_goals (try simp at hr)
  all_goals (obtain ⟨rfl, -⟩ := hr; decide)

/-- The status of `runVariableOp` is never Unreachable. -/
theorem runVariableOp_status (i : Instruction) (w w1 : Worker) (st : ErrCode)
    (hr : runVariableOp i w = some (st, w1)) : st ≠ .Unreachable := by
  unfold runVariableOp at hr
  dsimp only at hr
  repeat' split at hr
  all_goals (try simp at hr)
  all_goals (obtain ⟨rfl, -⟩ := hr; decide)

/-- The status of `runNumericOp` is never Unreachable when no helper reports it. -/
theorem runNumericOp_status (h : Helpers) (hh : h.neverUnreachable) (i : Instruction)
    (w w1 : Worker) (st : ErrCode)
    (hr : runNumericOp h i w = some (st, w1)) : st ≠ .Unreachable := by
  obtain ⟨h1, h2, h3, h4, h5, h6, h7, h8, h9, -, -⟩ := hh
  unfold runNumericOp at hr
  dsimp only at hr
  repeat' split at hr
  all_goals first
    | exact h1 _ _ _ _ _ _ hr
    | exact h2 _ _ _ _ _ _ hr
    | exact h3 _ _ _ _ _ _ hr
    | exact h4 _ _ _ _ _ _ hr
    | exact h5 _ _ _ _ _ _ hr
    | exact h6 _ _ _ _ _ _ hr
    | exact h7 _ _ _ _ _ _ hr
    | exact h8 _ _ _ _ _ _ hr
    | exact h9 _ _ _ _ _ _ hr
    | (simp at hr; done)
    | (simp at hr; obtain ⟨rfl, -⟩ := hr; decide)

/-- The status of `runMemoryOp` is never Unreachable when no helper reports it. -/
theorem runMemoryOp_status (h : Helpers) (hh : h.neverUnreachable) (i : Instruction)
    (w w1 : Worker) (st : ErrCode)
    (hr : runMemoryOp h i w = some (st, w1)) : st ≠ .Unreachable := by
  obtain ⟨-, -, -, -, -, -, -, -, -, h10, h11⟩ := hh
  unfold runMemoryOp at hr
  repeat' split at hr
  all_goals first
    | exact h10 _ _ _ _ _ hr
    | exact h11 _ _ _ _ _ hr
    | (simp at hr; done)
    | (simp at hr; obtain ⟨rfl, -⟩ := hr; decide)

/-- The status of `popInstrs` is never Unreachable. -/
theorem popInstrs_status (p : InstrProvider) :
    (InstrProvider.popInstrs p).1 ≠ .Unreachable := by
  cases p <;> simp [InstrProvider.popInstrs]

/-- The status of one iteration of the loop is never Unreachable when no
helper reports it. -/
theorem runLoopStep_status (h : Helpers) (hh : h.neverUnreachable) (w w1 : Worker)
    (st : ErrCode) (hr : runLoopStep h w = some (st, w1)) : st ≠ .Unreachable := by
  unfold runLoopStep at hr
  dsimp only at hr
  repeat' split at hr
  all_goals first
    | exact returnFunction_status _ _ _ hr
    | exact leaveBlock_status _ _ _ hr
    | exact runConstNumericOp_status _ _ _ _ hr
    | exact runControlOp_status _ _ _ _ _ hr
    | exact runNumericOp_status h hh _ _ _ _ hr
    | exact runMemoryOp_status h hh _ _ _ _ hr
    | exact runParametricOp_status _ _ _ _ hr
    | exact runVariableOp_status _ _ _ _ hr
    | (simp at hr; done)
    | (simp at hr; obtain ⟨rfl, -⟩ := hr; decide)
    | (simp at hr; obtain ⟨rfl, -⟩ := hr; exact popInstrs_status _)

/-- The status the loop ends with is never Unreachable when it does not start
with it and no helper reports it. -/
theorem runLoopWhile_status (h : Helpers) (hh : h.neverUnreachable) (fuel : Nat) :
    ∀ (st0 : ErrCode) (w w1 : Worker) (st : ErrCode), st0 ≠ .Unreachable →
      runLoopWhile h fuel st0 w = some (st, w1) → st ≠ .Unreachable := by
  induction fuel with
  | zero =>
    intro st0 w w1 st h0 hr
    rw [runLoopWhile.eq_def] at hr
    split at hr
    · simp at hr
    · simp at hr
      rw [← hr.1]; exact h0
  | succ fuel ih =>
    intro st0 w w1 st h0 hr
    rw [runLoopWhile.eq_def] at hr
    split at hr
    · simp only at hr
      split at hr
      · simp at hr
      · rename_i st1 w2 hstep
        exact ih st1 w2 w1 st (runLoopStep_status h hh w w2 st1 hstep) hr
    · simp at hr
      rw [← hr.1]; exact h0

/-- What `runLoop` entered in state CodeSet leaves: state Unreachable with
status Unreachable, or state Inited with another status. -/
theorem runLoop_final_state (h : Helpers) (hh : h.neverUnreachable) (fuel : Nat)
    (w w1 : Worker) (st : ErrCode) (hst : w.state = .CodeSet)
    (hr : runLoop h fuel w = some (st, w1)) :
    (w1.state = .Unreachable ∧ st = .Unreachable)
    ∨ (w1.state = .Inited ∧ st ≠ .Unreachable) := by
  unfold runLoop at hr
  simp only [hst] at hr
  simp only [reduceCtorEq, if_false, ne_eq, not_true_eq_false] at hr
  split at hr
  · simp at hr
  · rename_i st2 w2 hw
    split at hr
    · rename_i hu
      simp at hr
      left
      rw [← hr.1, ← hr.2]
      exact ⟨hu, rfl⟩
    · simp at hr
      right
      rw [← hr.1, ← hr.2]
      exact ⟨rfl, runLoopWhile_status h hh fuel .Success _ w2 st2 (by decide) hw⟩

/-- The function `invokeFunction` keeps the state and never reports Unreachable. -/
theorem invokeFunction_state_status (funcAddr : Nat) (w w1 : Worker) (st : ErrCode)
    (hr : invokeFunction funcAddr w = some (st, w1)) :
    w1.state = w.state ∧ st ≠ .Unreachable := by
  unfold invokeFunction at hr
  dsimp only at hr
  split at hr
  · rename_i e hl
    simp at hr
    unfold StoreManager.getFunction lookup at hl
    split at hl
    · simp at hl
    · simp at hl
      rw [← hr.1, ← hr.2, ← hl]
      exact ⟨rfl, by decide⟩
  · repeat' split at hr
    all_goals (try simp [enterBlock, InstrProvider.pushInstrs] at hr)
    all_goals (obtain ⟨rfl, rfl⟩ := hr; exact ⟨rfl, by decide⟩)

/-- C14.  For every call of `runExpression` or `runStartFunction` made in
state Inited that returns, the state on return is Unreachable exactly when
the returned status is Unreachable, and Inited in every other case; it is
never CodeSet or Active.  The numeric and memory helpers, whose bodies are
not in the sources, are taken not to report the status Unreachable. -/
theorem entry_points_final_state (h : Helpers) (hh : h.neverUnreachable) (fuel : Nat)
    (instrs : InstrVec) (funcAddr : Nat) (w w1 : Worker) (st : ErrCode)
    (hst : w.state = .Inited)
    (hr : runExpression h fuel instrs w = some (st, w1)
      ∨ runStartFunction h fuel funcAddr w = some (st, w1)) :
    (w1.state = .Unreachable ↔ st = .Unreachable)
    ∧ (st ≠ .Unreachable → w1.state = .Inited)
    ∧ w1.state ≠ .CodeSet ∧ w1.state ≠ .Active := by
  have key : (w1.state = .Unreachable ∧ st = .Unreachable)
      ∨ (w1.state = .Inited ∧ st ≠ .Unreachable) := by
    rcases hr with hr | hr
    · rw [runExpression_of_inited h fuel instrs w hst] at hr
      exact runLoop_final_state h hh fuel _ w1 st rfl hr
    · unfold runStartFunction at hr
      simp only [hst, ne_eq, not_true_eq_false, if_false] at hr
      split at hr
      · simp at hr
      · rename_i st2 w2 hinv
        have hi := invokeFunction_state_status funcAddr w w2 st2 hinv
        split at hr
        · simp at hr
          right
          rw [← hr.1, ← hr.2, hi.1]
          exact ⟨hst, hi.2⟩
        · exact runLoop_final_state h hh fuel _ w1 st rfl hr
  rcases key with ⟨hs, hu⟩ | ⟨hs, hu⟩
  · rw [hs, hu]; simp
  · rw [hs]; simp [hu]

/-- The fixture helper record reports Unimplemented only. -/
theorem unimplemented_neverUnreachable : Helpers.unimplemented.neverUnreachable := by
  refine ⟨?_, ?_, ?_, ?_, ?_, ?_, ?_, ?_, ?_, ?_, ?_⟩
  all_goals first
    | (intro t a b w st w1 hr
       simp [Helpers.unimplemented] at hr
       rw [← hr.1]; decide)
    | (intro t i w st w1 hr
       simp [Helpers.unimplemented] at hr
       rw [← hr.1]; decide)

/-- C14, at the expression `[unreachable]`, which returns Unreachable in state
Unreachable, and at the start of a function that does not exist, which
returns the address error in state Inited. -/
theorem entry_points_final_state_witness :
    ((({ freshWorker danglingTypeStore [] with
          state := .Unreachable,
          instrPdr := [] } : Worker).state = .Unreachable
        ↔ ErrCode.Unreachable = .Unreachable)
      ∧ (ErrCode.Unreachable ≠ .Unreachable →
          ({ freshWorker danglingTypeStore [] with
              state := .Unreachable, instrPdr := [] } : Worker).state = .Inited)
      ∧ ({ freshWorker danglingTypeStore [] with
            state := .Unreachable, instrPdr := [] } : Worker).state ≠ .CodeSet
      ∧ ({ freshWorker danglingTypeStore [] with
            state := .Unreachable, instrPdr := [] } : Worker).state ≠ .Active)
    ∧ (((freshWorker danglingTypeStore []).state = .Unreachable
        ↔ ErrCode.AddressOutOfRange = .Unreachable)
      ∧ (ErrCode.AddressOutOfRange ≠ .Unreachable →
          (freshWorker danglingTypeStore []).state = .Inited)
      ∧ (freshWorker danglingTypeStore []).state ≠ .CodeSet
      ∧ (freshWorker danglingTypeStore []).state ≠ .Active) :=
  ⟨entry_points_final_state Helpers.unimplemented unimplemented_neverUnreachable 2
      [.control .Unreachable 0 []] 0 (freshWorker danglingTypeStore [])
      { freshWorker danglingTypeStore [] with state := .Unreachable, instrPdr := [] }
      .Unreachable rfl (Or.inl rfl),
   entry_points_final_state Helpers.unimplemented unimplemented_neverUnreachable 2
      [] 5 (freshWorker danglingTypeStore []) (freshWorker danglingTypeStore [])
      .AddressOutOfRange rfl (Or.inr rfl)⟩

/-! ## Memory facts for `fd_read` -/

/-- The byte found at an index of a written buffer. -/
theorem writeBytes_getElem? (data : List Nat) (off : Nat) (bytes : List Nat) (i : Nat)
    (hb : off + bytes.length ≤ data.length) :
    (writeBytes data off bytes)[i]?
      = if off ≤ i ∧ i < off + bytes.length then bytes[i - off]? else data[i]? := by
  unfold writeBytes
  have htake : (data.take off).length = off := by
    rw [List.length_take]; omega
  by_cases h1 : i < off
  · have : ¬ (off ≤ i ∧ i < off + bytes.length) := by omega
    rw [if_neg this, List.append_assoc, List.getElem?_append_left (by omega),
      List.getElem?_take_of_lt h1]
  · by_cases h2 : i < off + bytes.length
    · rw [if_pos ⟨by omega, h2⟩, List.append_assoc, List.getElem?_append_right (by omega),
        htake, List.getElem?_append_left (by omega)]
    · have : ¬ (off ≤ i ∧ i < off + bytes.length) := by omega
      rw [if_neg this, List.getElem?_append_right (by simp; omega), List.getElem?_drop]
      congr 1
      simp [htake]
      omega

/-- Writing in bounds keeps the size. -/
theorem writeBytes_length (data : List Nat) (off : Nat) (bytes : List Nat)
    (hb : off + bytes.length ≤ data.length) :
    (writeBytes data off bytes).length = data.length := by
  unfold writeBytes
  simp [List.length_take]
  omega

/-- The written region holds the written bytes. -/
theorem writeBytes_same (data : List Nat) (off : Nat) (bytes : List Nat)
    (hb : off + bytes.length ≤ data.length) :
    ((writeBytes data off bytes).drop off).take bytes.length = bytes := by
  apply List.ext_getElem?
  intro i
  rw [List.getElem?_take, List.getElem?_drop, writeBytes_getElem? data off bytes _ hb]
  by_cases hi : i < bytes.length
  · rw [if_pos hi, if_pos ⟨by omega, by omega⟩]
    congr 1
    omega
  · rw [if_neg hi, List.getElem?_eq_none (by omega)]

/-- A region apart from the written one keeps its bytes. -/
theorem writeBytes_apart (data : List Nat) (off : Nat) (bytes : List Nat) (a n : Nat)
    (hb : off + bytes.length ≤ data.length)
    (hd : a + n ≤ off ∨ off + bytes.length ≤ a) :
    ((writeBytes data off bytes).drop a).take n = (data.drop a).take n := by
  apply List.ext_getElem?
  intro i
  rw [List.getElem?_take, List.getElem?_take, List.getElem?_drop, List.getElem?_drop,
    writeBytes_getElem? data off bytes _ hb]
  by_cases hi : i < n
  · have : ¬ (off ≤ a + i ∧ a + i < off + bytes.length) := by omega
    rw [if_pos hi, if_pos hi, if_neg this]
  · rw [if_neg hi, if_neg hi]

/-- Filling buffers in bounds keeps the size. -/
theorem fillAll_length (ios : List IoRecord) :
    ∀ data : List Nat, (∀ io ∈ ios, io.bufPtr + io.data.length ≤ data.length) →
      (fillAll data ios).length = data.length := by
  induction ios with
  | nil => intro data _; rfl
  | cons io rest ih =>
    intro data hb
    have h0 := hb io (by simp)
    have hl := writeBytes_length data io.bufPtr io.data h0
    rw [fillAll, ih _ (fun x hx => by rw [hl]; exact hb x (by simp [hx])), hl]

/-- A region apart from every buffer keeps its bytes. -/
theorem fillAll_apart (ios : List IoRecord) (a n : Nat) :
    ∀ data : List Nat, (∀ io ∈ ios, io.bufPtr + io.data.length ≤ data.length) →
      (∀ io ∈ ios, regionsApart io.bufPtr io.data.length a n) →
      ((fillAll data ios).drop a).take n = (data.drop a).take n := by
  induction ios with
  | nil => intro data _ _; rfl
  | cons io rest ih =>
    intro data hb hd
    have h0 := hb io (by simp)
    have hl := writeBytes_length data io.bufPtr io.data h0
    have hd0 : a + n ≤ io.bufPtr ∨ io.bufPtr + io.data.length ≤ a := by
      have := hd io (by simp)
      unfold regionsApart at this
      omega
    rw [fillAll, ih _ (fun x hx => by rw [hl]; exact hb x (by simp [hx]))
      (fun x hx => hd x (by simp [hx])), writeBytes_apart data io.bufPtr io.data a n h0 hd0]

/-- Every buffer holds its bytes once all are filled, when the buffers lie in
bounds and apart from one another. -/
theorem fillAll_holds (ios : List IoRecord) :
    ∀ data : List Nat, (∀ io ∈ ios, io.bufPtr + io.data.length ≤ data.length) →
      ios.Pairwise (fun x y => regionsApart x.bufPtr x.data.length y.bufPtr y.data.length) →
      ∀ io ∈ ios, ((fillAll data ios).drop io.bufPtr).take io.data.length = io.data := by
  induction ios with
  | nil => intro data _ _ io hio; simp at hio
  | cons io0 rest ih =>
    intro data hb hp io hio
    have h0 := hb io0 (by simp)
    have hl := writeBytes_length data io0.bufPtr io0.data h0
    have hrest : ∀ x ∈ rest, x.bufPtr + x.data.length ≤ (writeBytes data io0.bufPtr io0.data).length :=
      fun x hx => by rw [hl]; exact hb x (by simp [hx])
    rw [List.pairwise_cons] at hp
    rcases List.mem_cons.mp hio with h1 | h1
    · subst h1
      rw [fillAll, fillAll_apart rest io.bufPtr io.data.length _ hrest
        (fun x hx => by
          have := hp.1 x hx
          unfold regionsApart at this ⊢
          omega),
        writeBytes_same data io.bufPtr io.data h0]
    · rw [fillAll]
      exact ih _ hrest hp.2 io h1

/-- A load apart from a filled buffer reads what it read before. -/
theorem loadValue_fill_apart (m m1 : MemoryInstance) (ptr : Nat) (bytes : List Nat) (a n : Nat)
    (hf : m.fill ptr bytes = some m1) (hd : a + n ≤ ptr ∨ ptr + bytes.length ≤ a) :
    m1.loadValue a n = m.loadValue a n := by
  unfold MemoryInstance.fill at hf
  split at hf
  · rename_i hb
    simp at hf
    subst hf
    unfold MemoryInstance.loadValue MemoryInstance.bytesAt
    simp only [writeBytes_length m.data ptr bytes hb, writeBytes_apart m.data ptr bytes a n hb hd]
  · simp at hf

/-- The iovec records apart from a filled buffer read as before. -/
theorem iovecsAt_fill (ios : List IoRecord) (m m1 : MemoryInstance) (ptr : Nat)
    (bytes : List Nat) (hf : m.fill ptr bytes = some m1) :
    ∀ a : Nat, regionsApart ptr bytes.length a (8 * ios.length) →
      iovecsAt m a ios → iovecsAt m1 a ios := by
  induction ios with
  | nil => intro a _ _; trivial
  | cons io rest ih =>
    intro a hd hi
    unfold regionsApart at hd
    simp only [List.length_cons] at hd
    obtain ⟨h1, h2, h3⟩ := hi
    refine ⟨?_, ?_, ?_⟩
    · rw [loadValue_fill_apart m m1 ptr bytes a 4 hf (by omega)]; exact h1
    · rw [loadValue_fill_apart m m1 ptr bytes (a + 4) 4 hf (by omega)]; exact h2
    · exact ih (a + 8) (by unfold regionsApart; omega) h3

/-- A successful load lies in bounds. -/
theorem loadValue_bound (m : MemoryInstance) (off n v : Nat)
    (hl : m.loadValue off n = .ok v) : off + n ≤ m.data.length := by
  unfold MemoryInstance.loadValue at hl
  split at hl
  · assumption
  · simp at hl

/-- The reading loop over records that all read: the byte count grows by the
bytes delivered, the buffers are filled one after the other, no `ErrNo`. -/
theorem readLoop_all {σ : Type} (read : ReadFn σ) (fd : Nat) (ios : List IoRecord) :
    ∀ (env envEnd : σ) (mem : MemoryInstance) (iovsPtr nRead : Nat),
      mem.data.length ≤ 4294967296 →
      nRead < 4294967296 →
      iovecsAt mem iovsPtr ios →
      readsGive read fd env ios envEnd →
      (∀ io ∈ ios, io.bufLen < 4294967296) →
      (∀ io ∈ ios, io.bufPtr + io.data.length ≤ mem.data.length) →
      (∀ io ∈ ios, io.data.length < 4294967295) →
      (∀ io ∈ ios, regionsApart io.bufPtr io.data.length iovsPtr (8 * ios.length)) →
      WasiFdRead.readLoop read ios.length env mem fd iovsPtr nRead
        = some (.finished ((nRead + totalRead ios) % 4294967296) 0,
            { data := fillAll mem.data ios }, envEnd) := by
  induction ios with
  | nil =>
    intro env envEnd mem iovsPtr nRead _ hn _ hr _ _ _ _
    simp only [readsGive] at hr
    subst hr
    simp [WasiFdRead.readLoop, totalRead, fillAll, Nat.mod_eq_of_lt hn]
  | cons io rest ih =>
    intro env envEnd mem iovsPtr nRead hsize hn hrec hreads hlen hbuf hdata hapart
    obtain ⟨hp, hl, hrecRest⟩ := hrec
    obtain ⟨hread, hreadsRest⟩ := hreads
    have hb4 := loadValue_bound mem (iovsPtr + 4) 4 io.bufLen hl
    have hlen0 := hlen io (by simp)
    have hbuf0 := hbuf io (by simp)
    have hdata0 := hdata io (by simp)
    have hapart0 := hapart io (by simp)
    have hreadEq : read env fd io.bufLen = (some io.data, (read env fd io.bufLen).2) := by
      rw [← hread]
    have hfill : mem.fill io.bufPtr io.data
        = some { data := writeBytes mem.data io.bufPtr io.data } := by
      simp [MemoryInstance.fill, hbuf0]
    have hl1 := writeBytes_length mem.data io.bufPtr io.data hbuf0
    have hstep : WasiFdRead.readLoop read (io :: rest).length env mem fd iovsPtr nRead
        = WasiFdRead.readLoop read rest.length (read env fd io.bufLen).2
            { data := writeBytes mem.data io.bufPtr io.data } fd
            ((iovsPtr + 8) % 4294967296) ((nRead + io.data.length) % 4294967296) := by
      rw [List.length_cons, WasiFdRead.readLoop, hp]
      simp only
      rw [Nat.mod_eq_of_lt (by omega : iovsPtr + 4 < 4294967296), hl]
      simp only
      rw [Nat.mod_eq_of_lt hlen0, hreadEq]
      simp only
      rw [hfill]
      simp only
      rw [Nat.mod_eq_of_lt (by omega : io.data.length < 4294967296)]
      rw [if_neg (by omega)]
    rw [hstep]
    have hnext : rest = [] ∨ (iovsPtr + 8) % 4294967296 = iovsPtr + 8 := by
      cases rest with
      | nil => left; rfl
      | cons io1 rest1 =>
        right
        have := loadValue_bound mem (iovsPtr + 8) 4 io1.bufPtr hrecRest.1
        exact Nat.mod_eq_of_lt (by omega)
    have htotal : totalRead (io :: rest) = io.data.length + totalRead rest := by
      simp [totalRead]
    rcases hnext with hnil | hmod
    · subst hnil
      simp only [readsGive] at hreadsRest
      subst hreadsRest
      simp [WasiFdRead.readLoop, fillAll, totalRead]
    · rw [hmod]
      rw [ih (read env fd io.bufLen).2 envEnd { data := writeBytes mem.data io.bufPtr io.data }
        (iovsPtr + 8) ((nRead + io.data.length) % 4294967296)
        (by rw [hl1]; exact hsize) (Nat.mod_lt _ (by decide))
        (iovecsAt_fill rest mem _ io.bufPtr io.data hfill (iovsPtr + 8)
          (by
            unfold regionsApart at hapart0 ⊢
            simp only [List.length_cons] at hapart0
            omega) hrecRest)
        hreadsRest (fun x hx => hlen x (by simp [hx]))
        (fun x hx => by rw [hl1]; exact hbuf x (by simp [hx]))
        (fun x hx => hdata x (by simp [hx]))
        (fun x hx => by
          have := hapart x (by simp [hx])
          unfold regionsApart at this ⊢
          simp only [List.length_cons] at this
          omega)]
      rw [htotal, fillAll]
      congr 3
      omega

/-- The encoding has the length asked for. -/
theorem leEncode_length (n : Nat) : ∀ value : Nat, (leEncode value n).length = n := by
  induction n with
  | zero => intro value; rfl
  | succ n ih => intro value; simp [leEncode, ih]

/-- C15 (counterexample).  The descriptor 0 holds the bytes `[0xAA, 0xBB]`,
the memory one iovec `(ptr 0, len 2)` at offset 8, and the argument list is in
declared order `[fd 0, iovs_ptr 8, iovs_cnt 1, nread_ptr 16]`.  `run` takes the
descriptor from the last argument (16), on which the read fails: it returns
Success with the result `i32 1`, the memory is unchanged (no `0xAA, 0xBB` at
offset 0, byte count 0 written at offset 0) and the descriptor is unread. -/
theorem fd_read_declared_order_misread :
    WasiFdRead.run fixtureRead [some [170, 187]]
        [.i32 0, .i32 8, .i32 1, .i32 16] [.i32 99] (fdReadStore fdReadMemory) fdReadModule
      = some (.Success, [.i32 1], fdReadStore fdReadMemory, [some [170, 187]])
    ∧ fdReadMemory.bytesAt 0 2 ≠ [170, 187]
    ∧ fdReadMemory.bytesAt 16 4 ≠ leEncode 2 4 := by
  refine ⟨rfl, by decide, by decide⟩

/-- C15 (amended).  The argument list is in the order `[nread_ptr, iovs_cnt,
iovs_ptr, fd]`, the reverse of the declared one; the memory is at most 4 GiB;
the iovec array reads as the buffers of `ios`; every read on `fd` succeeds and
delivers the bytes of its record; the buffers lie in bounds and apart from the
iovec array, from the slot at `nread_ptr` and from one another; the slot lies
in bounds.  Then `run` returns Success with the single result `i32 0`, the
four bytes at `nread_ptr` are the little-endian number of bytes read in all
(mod 2^32), and every buffer holds the bytes read into it. -/
theorem fd_read_reads_all {σ : Type} (read : ReadFn σ) (env envEnd : σ)
    (fd iovsPtr nReadPtr memAddr : Nat) (ios : List IoRecord) (res0 : Value)
    (store : StoreManager) (modInst : ModuleInstance) (mem : MemoryInstance)
    (hfd : fd < 4294967296) (hptr : iovsPtr < 4294967296)
    (hcnt : ios.length < 4294967296) (hnr : nReadPtr < 4294967296)
    (hmemAddr : modInst.getMemAddr 0 = .ok memAddr)
    (hmem : store.getMemory memAddr = .ok mem)
    (hsize : mem.data.length ≤ 4294967296)
    (hrec : iovecsAt mem iovsPtr ios)
    (hreads : readsGive read fd env ios envEnd)
    (hlen : ∀ io ∈ ios, io.bufLen < 4294967296)
    (hbuf : ∀ io ∈ ios, io.bufPtr + io.data.length ≤ mem.data.length)
    (harr : ∀ io ∈ ios, regionsApart io.bufPtr io.data.length iovsPtr (8 * ios.length))
    (hslot : ∀ io ∈ ios, regionsApart io.bufPtr io.data.length nReadPtr 4)
    (hpair : ios.Pairwise
      (fun x y => regionsApart x.bufPtr x.data.length y.bufPtr y.data.length))
    (hnread : nReadPtr + 4 ≤ mem.data.length) :
    ∃ memEnd : MemoryInstance,
      WasiFdRead.run read env [.i32 nReadPtr, .i32 ios.length, .i32 iovsPtr, .i32 fd] [res0]
          store modInst
        = some (.Success, [.i32 0], store.setMemory memAddr memEnd, envEnd)
      ∧ memEnd.bytesAt nReadPtr 4 = leEncode (totalRead ios % 4294967296) 4
      ∧ ∀ io ∈ ios, memEnd.bytesAt io.bufPtr io.data.length = io.data := by
  have hdata : ∀ io ∈ ios, io.data.length < 4294967295 := by
    intro io hio
    have h1 := hbuf io hio
    have h2 := hslot io hio
    unfold regionsApart at h2
    omega
  have hloop := readLoop_all read fd ios env envEnd mem iovsPtr 0 hsize (by decide) hrec hreads
    hlen hbuf hdata harr
  have hfl := fillAll_length ios mem.data hbuf
  have henc := leEncode_length 4 (totalRead ios % 4294967296)
  have hin : nReadPtr + (leEncode (totalRead ios % 4294967296) 4).length
      ≤ (fillAll mem.data ios).length := by
    rw [henc, hfl]; exact hnread
  refine ⟨⟨writeBytes (fillAll mem.data ios) nReadPtr
    (leEncode (totalRead ios % 4294967296) 4)⟩, ?_, ?_, ?_⟩
  · unfold WasiFdRead.run
    simp only [List.length_cons, List.length_nil, ne_eq, not_true_eq_false, if_false,
      List.get?_cons_succ, List.get?_cons_zero, Option.bind, retrieveU32,
      Nat.mod_eq_of_lt hfd, Nat.mod_eq_of_lt hptr, Nat.mod_eq_of_lt hcnt,
      Nat.mod_eq_of_lt hnr, hmemAddr, hmem, hloop, Nat.zero_add]
    simp [MemoryInstance.storeValue, hfl, hnread]
  · have := writeBytes_same (fillAll mem.data ios) nReadPtr
      (leEncode (totalRead ios % 4294967296) 4) hin
    rw [henc] at this
    exact this
  · intro io hio
    have hs := hslot io hio
    unfold regionsApart at hs
    unfold MemoryInstance.bytesAt
    rw [writeBytes_apart (fillAll mem.data ios) nReadPtr _ io.bufPtr io.data.length hin
      (by rw [henc]; omega)]
    exact fillAll_holds ios mem.data hbuf hpair io hio

/-- C15 (amended), at the descriptor bytes `[0xAA, 0xBB]` and one iovec
`(ptr 0, len 2)`: the memory then starts with `0xAA, 0xBB`, the byte count at
offset 16 is 2 and the result is `i32 0`. -/
theorem fd_read_reads_all_witness :
    (∃ memEnd : MemoryInstance,
      WasiFdRead.run fixtureRead [some [170, 187]]
          [.i32 16, .i32 ([⟨0, 2, [170, 187]⟩] : List IoRecord).length, .i32 8, .i32 0]
          [.i32 99] (fdReadStore fdReadMemory) fdReadModule
        = some (.Success, [.i32 0], (fdReadStore fdReadMemory).setMemory 0 memEnd, [some []])
      ∧ memEnd.bytesAt 16 4 = leEncode (totalRead [⟨0, 2, [170, 187]⟩] % 4294967296) 4
      ∧ ∀ io ∈ ([⟨0, 2, [170, 187]⟩] : List IoRecord),
          memEnd.bytesAt io.bufPtr io.data.length = io.data)
    ∧ WasiFdRead.run fixtureRead [some [170, 187]]
          [.i32 16, .i32 1, .i32 8, .i32 0] [.i32 99] (fdReadStore fdReadMemory) fdReadModule
        = some (.Success, [.i32 0],
            fdReadStore ⟨[170, 187, 0, 0, 0, 0, 0, 0, 0, 0, 0, 0, 2, 0, 0, 0,
                          2, 0, 0, 0, 0, 0, 0, 0]⟩,
            [some []]) :=
  ⟨fd_read_reads_all fixtureRead [some [170, 187]] [some []] 0 8 16 0
      [⟨0, 2, [170, 187]⟩] (.i32 99) (fdReadStore fdReadMemory) fdReadModule fdReadMemory
      (by decide) (by decide) (by decide) (by decide) rfl rfl (by decide)
      ⟨rfl, rfl, trivial⟩ ⟨rfl, rfl⟩ (by decide) (by decide) (by decide) (by decide)
      (by simp) (by decide),
   rfl⟩

/-- The reading loop after `k` iterations that read: it goes on from the
state they leave. -/
theorem readLoop_append {σ : Type} (read : ReadFn σ) (fd m : Nat) (k : Nat) :
    ∀ (env envK : σ) (mem memK : MemoryInstance) (iovsPtr nRead nReadK : Nat),
      iovsPtr < 4294967296 →
      WasiFdRead.readLoop read k env mem fd iovsPtr nRead
        = some (.finished nReadK 0, memK, envK) →
      WasiFdRead.readLoop read (k + m) env mem fd iovsPtr nRead
        = WasiFdRead.readLoop read m envK memK fd ((iovsPtr + 8 * k) % 4294967296) nReadK := by
  induction k with
  | zero =>
    intro env envK mem memK iovsPtr nRead nReadK hptr hk
    simp [WasiFdRead.readLoop] at hk
    obtain ⟨h1, h2, h3⟩ := hk
    subst h1; subst h2; subst h3
    simp [Nat.mod_eq_of_lt hptr]
  | succ k ih =>
    intro env envK mem memK iovsPtr nRead nReadK hptr hk
    rw [show k + 1 + m = (k + m) + 1 by omega, WasiFdRead.readLoop]
    rw [WasiFdRead.readLoop] at hk
    cases h1 : mem.loadValue iovsPtr 4 with
    | error e => simp [h1] at hk
    | ok bufPtr =>
      simp only [h1] at hk ⊢
      cases h2 : mem.loadValue ((iovsPtr + 4) % 4294967296) 4 with
      | error e => simp [h2] at hk
      | ok bufLen =>
        simp only [h2] at hk ⊢
        cases h3 : read env fd (bufLen % 4294967296) with
        | mk ans env1 =>
          simp only [h3] at hk ⊢
          cases ans with
          | none => simp at hk
          | some bytes =>
            simp only at hk ⊢
            cases h4 : mem.fill bufPtr bytes with
            | none => simp [h4] at hk
            | some mem1 =>
              simp only [h4] at hk ⊢
              by_cases h5 : bytes.length % 4294967296 = 4294967295
              · simp [h5] at hk
              · simp only [h5, if_false] at hk ⊢
                rw [ih env1 envK mem1 memK _ _ nReadK (Nat.mod_lt _ (by decide)) hk]
                congr 1
                omega

/-- C16 (counterexample).  No descriptor is open, so the read for the one
iovec fails.  `run` returns the status Success, not HostFunctionFailed; the
failure shows in the result `i32 1` only, and the byte count written is 0. -/
theorem fd_read_failure_returns_success :
    WasiFdRead.run fixtureRead []
        [.i32 16, .i32 1, .i32 8, .i32 3] [.i32 99] (fdReadStore fdReadMemory) fdReadModule
      = some (.Success, [.i32 1], fdReadStore fdReadMemory, [])
    ∧ (WasiFdRead.run fixtureRead []
        [.i32 16, .i32 1, .i32 8, .i32 3] [.i32 99] (fdReadStore fdReadMemory)
        fdReadModule).map (fun r => r.1) ≠ some ErrCode.HostFunctionFailed :=
  ⟨rfl, by decide⟩

/-- A load apart from every filled buffer reads what it read before. -/
theorem loadValue_fillAll_apart (ios : List IoRecord) (m : MemoryInstance) (a n : Nat)
    (hbuf : ∀ io ∈ ios, io.bufPtr + io.data.length ≤ m.data.length)
    (hd : ∀ io ∈ ios, regionsApart io.bufPtr io.data.length a n) :
    MemoryInstance.loadValue ⟨fillAll m.data ios⟩ a n = m.loadValue a n := by
  unfold MemoryInstance.loadValue MemoryInstance.bytesAt
  simp only [fillAll_length ios m.data hbuf, fillAll_apart ios a n m.data hbuf hd]

/-- C16 (amended).  The four arguments are `[nread_ptr, iovs_cnt, iovs_ptr,
fd]` and the memory is at most 4 GiB.  The first `k` iovec records read as the
buffers of `ios`, the reads into them succeed and deliver the bytes of `ios`,
these buffers lie in bounds and apart from the first `k + 1` iovec records;
the next record is readable and the read for it fails (returns -1); the slot
at `nread_ptr` lies in bounds.  Then `run` returns the status Success and
reports the failure in its single result, `i32 1`; the descriptor state is
the one the failed read left, so no further iovec is read; and the four bytes
at `nread_ptr` are the little-endian number of bytes the `k` reads delivered
(mod 2^32), the -1 not being added. -/
theorem fd_read_failed_read {σ : Type} (read : ReadFn σ) (env envK envFail : σ)
    (fd iovsPtr iovsCnt nReadPtr memAddr failPtr failLen : Nat) (ios : List IoRecord)
    (res0 : Value) (store : StoreManager) (modInst : ModuleInstance) (mem : MemoryInstance)
    (hfd : fd < 4294967296) (hptr : iovsPtr < 4294967296)
    (hcnt : iovsCnt < 4294967296) (hnr : nReadPtr < 4294967296)
    (hmemAddr : modInst.getMemAddr 0 = .ok memAddr)
    (hmem : store.getMemory memAddr = .ok mem)
    (hsize : mem.data.length ≤ 4294967296)
    (hk : ios.length < iovsCnt)
    (hrec : iovecsAt mem iovsPtr ios)
    (hreads : readsGive read fd env ios envK)
    (hlen : ∀ io ∈ ios, io.bufLen < 4294967296)
    (hbuf : ∀ io ∈ ios, io.bufPtr + io.data.length ≤ mem.data.length)
    (harr : ∀ io ∈ ios,
      regionsApart io.bufPtr io.data.length iovsPtr (8 * (ios.length + 1)))
    (hp : mem.loadValue (iovsPtr + 8 * ios.length) 4 = .ok failPtr)
    (hl : mem.loadValue (iovsPtr + 8 * ios.length + 4) 4 = .ok failLen)
    (hfailLen : failLen < 4294967296)
    (hfail : read envK fd failLen = (none, envFail))
    (hnread : nReadPtr + 4 ≤ mem.data.length) :
    ∃ memEnd : MemoryInstance,
      WasiFdRead.run read env [.i32 nReadPtr, .i32 iovsCnt, .i32 iovsPtr, .i32 fd] [res0]
          store modInst
        = some (.Success, [.i32 1], store.setMemory memAddr memEnd, envFail)
      ∧ memEnd.data = writeBytes (fillAll mem.data ios) nReadPtr
          (leEncode (totalRead ios % 4294967296) 4)
      ∧ memEnd.bytesAt nReadPtr 4 = leEncode (totalRead ios % 4294967296) 4 := by
  have hb8 := loadValue_bound mem (iovsPtr + 8 * ios.length + 4) 4 failLen hl
  have hdata : ∀ io ∈ ios, io.data.length < 4294967295 := by
    intro io hio
    have h1 := hbuf io hio
    have h2 := harr io hio
    unfold regionsApart at h2
    omega
  have harr0 : ∀ io ∈ ios, regionsApart io.bufPtr io.data.length iovsPtr (8 * ios.length) := by
    intro io hio
    have h2 := harr io hio
    unfold regionsApart at h2 ⊢
    omega
  have hloopK := readLoop_all read fd ios env envK mem iovsPtr 0 hsize (by decide) hrec hreads
    hlen hbuf hdata harr0
  rw [Nat.zero_add] at hloopK
  obtain ⟨m, rfl⟩ : ∃ m, iovsCnt = ios.length + (m + 1) :=
    ⟨iovsCnt - ios.length - 1, by omega⟩
  have hpK : MemoryInstance.loadValue ⟨fillAll mem.data ios⟩ (iovsPtr + 8 * ios.length) 4
      = .ok failPtr := by
    rw [loadValue_fillAll_apart ios mem _ 4 hbuf (fun io hio => by
      have h2 := harr io hio
      unfold regionsApart at h2 ⊢
      omega)]
    exact hp
  have hlK : MemoryInstance.loadValue ⟨fillAll mem.data ios⟩ (iovsPtr + 8 * ios.length + 4) 4
      = .ok failLen := by
    rw [loadValue_fillAll_apart ios mem _ 4 hbuf (fun io hio => by
      have h2 := harr io hio
      unfold regionsApart at h2 ⊢
      omega)]
    exact hl
  have hloop : WasiFdRead.readLoop read (ios.length + (m + 1)) env mem fd iovsPtr 0
      = some (.finished (totalRead ios % 4294967296) 1, ⟨fillAll mem.data ios⟩, envFail) := by
    rw [readLoop_append read fd (m + 1) ios.length env envK mem _ iovsPtr 0 _ hptr hloopK,
      WasiFdRead.readLoop,
      Nat.mod_eq_of_lt (by omega : iovsPtr + 8 * ios.length < 4294967296), hpK]
    simp only
    rw [Nat.mod_eq_of_lt (by omega : iovsPtr + 8 * ios.length + 4 < 4294967296), hlK]
    simp only
    rw [Nat.mod_eq_of_lt hfailLen, hfail]
  have hfl := fillAll_length ios mem.data hbuf
  have henc := leEncode_length 4 (totalRead ios % 4294967296)
  have hin : nReadPtr + (leEncode (totalRead ios % 4294967296) 4).length
      ≤ (fillAll mem.data ios).length := by
    rw [henc, hfl]; exact hnread
  refine ⟨⟨writeBytes (fillAll mem.data ios) nReadPtr
    (leEncode (totalRead ios % 4294967296) 4)⟩, ?_, rfl, ?_⟩
  · unfold WasiFdRead.run
    simp only [List.length_cons, List.length_nil, ne_eq, not_true_eq_false, if_false,
      List.get?_cons_succ, List.get?_cons_zero, Option.bind, retrieveU32,
      Nat.mod_eq_of_lt hfd, Nat.mod_eq_of_lt hptr, Nat.mod_eq_of_lt hcnt,
      Nat.mod_eq_of_lt hnr, hmemAddr, hmem, hloop, Nat.zero_add]
    simp [MemoryInstance.storeValue, hfl, hnread]
  · have := writeBytes_same (fillAll mem.data ios) nReadPtr
      (leEncode (totalRead ios % 4294967296) 4) hin
    rw [henc] at this
    exact this

/-- C16 (amended), at two iovecs and a read(2) that delivers the one byte
`0xAA` for the first and fails for the second: the result is `i32 1`, the
buffer of the first iovec holds `0xAA`, and the byte count written at offset
24 is 1. -/
theorem fd_read_failed_read_witness :
    (∃ memEnd : MemoryInstance,
      WasiFdRead.run brokenRead 0 [.i32 24, .i32 2, .i32 8, .i32 5] [.i32 99]
          (fdReadStore fdReadMemoryTwo) fdReadModule
        = some (.Success, [.i32 1], (fdReadStore fdReadMemoryTwo).setMemory 0 memEnd, 2)
      ∧ memEnd.data = writeBytes (fillAll fdReadMemoryTwo.data [⟨0, 2, [170]⟩]) 24
          (leEncode (totalRead [⟨0, 2, [170]⟩] % 4294967296) 4)
      ∧ memEnd.bytesAt 24 4 = leEncode (totalRead [⟨0, 2, [170]⟩] % 4294967296) 4)
    ∧ WasiFdRead.run brokenRead 0 [.i32 24, .i32 2, .i32 8, .i32 5] [.i32 99]
          (fdReadStore fdReadMemoryTwo) fdReadModule
        = some (.Success, [.i32 1],
            fdReadStore ⟨[170, 0, 0, 0, 0, 0, 0, 0, 0, 0, 0, 0, 2, 0, 0, 0,
                          2, 0, 0, 0, 2, 0, 0, 0, 1, 0, 0, 0]⟩,
            2) :=
  ⟨fd_read_failed_read brokenRead 0 1 2 5 8 2 24 0 2 2 [⟨0, 2, [170]⟩] (.i32 99)
      (fdReadStore fdReadMemoryTwo) fdReadModule fdReadMemoryTwo
      (by decide) (by decide) (by decide) (by decide) rfl rfl (by decide) (by decide)
      ⟨rfl, rfl, trivial⟩ ⟨rfl, rfl⟩ (by decide) (by decide) (by decide) rfl rfl
      (by decide) rfl (by decide),
   rfl⟩

/-! ## The stack below the values on top -/

/-- Values without their locals are the values. -/
theorem map_shape_values (vs : List Value) :
    (vs.map StackEntry.value).map StackEntry.shape = vs.map StackEntry.value := by
  induction vs with
  | nil => rfl
  | cons v vs ih => simp [StackEntry.shape]

end SSVM
